import Mathlib

set_option maxHeartbeats 1000000
set_option maxRecDepth 8192

/-!
Shallow embedding of the scene-graph annotation viewer generated by
`generate_html_sampled.py`.  The embedded JavaScript manipulates a handful of
module-level state variables (`similarityAnnotations`, `attributeValidations`,
`additionalAttributes`, `relationshipValidations`, `additionalRelationships`,
`sceneGraphData`, `currentSceneId`); the functions below model those
variables and the operations on them as pure state transitions.  DOM updates,
console logging and network fetches are omitted: they never feed back into the
modelled state.
-/

namespace SceneAnnotator

/-!
## JS objects used as maps

`attributeValidations` and `relationshipValidations` are plain JS objects used
as maps from a numeric key to a validation string.  We model them as
association lists with JS object semantics: assignment overwrites an existing
entry in place or appends a fresh one, `delete` removes the entry, lookup
returns the stored value or `none` (JS `undefined`).
-/

abbrev ObjMap := List (Nat × String)

/-- Lookup `m[k]`: `none` models JS `undefined`. -/
def objGet (m : ObjMap) (k : Nat) : Option String :=
  match m with
  | [] => none
  | p :: rest => if p.1 = k then some p.2 else objGet rest k

/-- Whether key `k` is present. -/
def objHas (m : ObjMap) (k : Nat) : Bool :=
  (objGet m k).isSome

/-- Assignment `m[k] = v`: overwrite in place when present, append otherwise. -/
def objSet (m : ObjMap) (k : Nat) (v : String) : ObjMap :=
  if objHas m k then m.map (fun p => if p.1 = k then (k, v) else p)
  else m ++ [(k, v)]

/-- `delete m[k]`. -/
def objDelete (m : ObjMap) (k : Nat) : ObjMap :=
  m.filter (fun p => p.1 ≠ k)

/-- Two maps are identical as maps when every lookup agrees. -/
def mapEqv (m1 m2 : ObjMap) : Prop :=
  ∀ k, objGet m1 k = objGet m2 k

/-!
## Scene-graph data model

Loaded from `scene_graph.json`; shaped as consumed by the viewer
(`objects[*].id/labels`, `relationships[*].subject_id/name/recipient_id`,
`attributes[*].id/object_id/name/type`).  `recipient_id` may be absent in the
data, hence `Option`.
-/

structure SGObject where
  id : Nat
  labels : List String
deriving Repr, DecidableEq

structure SGRel where
  subject_id : Nat
  name : String
  recipient_id : Option (List Nat)
deriving Repr, DecidableEq

structure SGAttr where
  id : Nat
  object_id : Nat
  name : String
  type : Option String
deriving Repr, DecidableEq

structure SceneGraph where
  id : String
  objects : List SGObject
  relationships : List SGRel
  attributes : List SGAttr
deriving Repr, DecidableEq

/-- One similarity annotation, as pushed by `createSimilarityAnnotation`. -/
structure SimAnn where
  id1 : Nat
  id2 : Nat
  label1 : String
  label2 : String
  sameClass : Bool
  timestamp : String
deriving Repr, DecidableEq

/-- An entry of `additionalAttributes`. -/
structure AddedAttr where
  id : Nat
  object_id : Nat
  name : String
  timestamp : String
deriving Repr, DecidableEq

/-- An entry of `additionalRelationships`. -/
structure AddedRel where
  id : Nat
  subject_id : Nat
  object_id : Nat
  name : String
  timestamp : String
deriving Repr, DecidableEq

/-- The five annotation-state variables of the viewer. -/
structure AnnState where
  similarityAnnotations : List SimAnn
  attributeValidations : ObjMap
  additionalAttributes : List AddedAttr
  relationshipValidations : ObjMap
  additionalRelationships : List AddedRel
deriving Repr, DecidableEq

/-- Scene-level session state touched by `loadScene`. -/
structure Session where
  currentSceneId : Option String
  sceneGraphData : Option SceneGraph
  ann : AnnState
deriving Repr, DecidableEq

/-!
## loadScene / scene-graph file loading

`loadScene(sceneId)` returns immediately when `currentSceneId === sceneId`;
otherwise it loads the new scene graph and then runs

    attributeValidations = {};
    additionalAttributes = [];
    relationshipValidations = {};
    additionalRelationships = [];

No statement in `loadScene` (nor anywhere on this path) assigns to
`similarityAnnotations`, so the similarity list carries over unchanged.
Network/DOM steps (fetches, filter chips, mesh loading) do not touch the
annotation state and are omitted.
-/

def loadScene (s : Session) (sceneId : String) (newGraph : SceneGraph) : Session :=
  if s.currentSceneId = some sceneId then s
  else
    { currentSceneId := some sceneId
      sceneGraphData := some newGraph
      ann :=
        { similarityAnnotations := s.ann.similarityAnnotations
          attributeValidations := []
          additionalAttributes := []
          relationshipValidations := []
          additionalRelationships := [] } }

/-- The `scene-graph-file` change handler: same clearing block as `loadScene`,
with no guard on the current scene id and no change to `currentSceneId`. -/
def loadSceneGraphFile (s : Session) (newGraph : SceneGraph) : Session :=
  { s with
    sceneGraphData := some newGraph
    ann :=
      { similarityAnnotations := s.ann.similarityAnnotations
        attributeValidations := []
        additionalAttributes := []
        relationshipValidations := []
        additionalRelationships := [] } }

/-!
## Attribute / relationship validation toggles
-/

/-- `validateAttribute(attrId, status)`: toggle-off when already at `status`,
otherwise store `status`. -/
def validateAttribute (m : ObjMap) (attrId : Nat) (status : String) : ObjMap :=
  if objGet m attrId = some status then objDelete m attrId
  else objSet m attrId status

/-- `validateRelationship(relIndex, status)`: identical logic on
`relationshipValidations`, keyed by the relationship's positional index. -/
def validateRelationship (m : ObjMap) (relIndex : Nat) (status : String) : ObjMap :=
  if objGet m relIndex = some status then objDelete m relIndex
  else objSet m relIndex status

/-!
## Similarity toggling (`createSimilarityAnnotation`)
-/

/-- JS `obj.labels[0] || "Object " + id`: the fallback fires when `labels[0]`
is `undefined` (empty list) or the empty string (falsy). -/
def jsLabelOr (labels : List String) (fallbackId : Nat) : String :=
  match labels.head? with
  | some s => if s = "" then "Object " ++ toString fallbackId else s
  | none => "Object " ++ toString fallbackId

/-- The `findIndex` predicate: the annotation holds the pair in either
orientation. -/
def matchesPair (a b : Nat) (ann : SimAnn) : Bool :=
  (ann.id1 == a && ann.id2 == b) || (ann.id2 == a && ann.id1 == b)

/-- Remove the first list entry satisfying `p`
(models `findIndex` + `splice(index, 1)`). -/
def eraseFirst (p : SimAnn → Bool) : List SimAnn → List SimAnn
  | [] => []
  | a :: rest => if p a then rest else a :: eraseFirst p rest

/-- The annotation object pushed by `createSimilarityAnnotation`:
`{id1, id2, label1, label2, sameClass, timestamp}` with
`sameClass = (obj1.labels[0] === obj2.labels[0])`. -/
def simEntry (sel candidateId : Nat) (obj1 obj2 : SGObject) (ts : String) : SimAnn :=
  { id1 := sel
    id2 := candidateId
    label1 := jsLabelOr obj1.labels sel
    label2 := jsLabelOr obj2.labels candidateId
    sameClass := obj1.labels.head? == obj2.labels.head?
    timestamp := ts }

/-- Model of `createSimilarityAnnotation(candidateId)` acting on the
`similarityAnnotations` list.  The selected object id and the timestamp of a
freshly created annotation are passed explicitly.  `findIndex` + `splice`
is modelled by `eraseFirst` (remove the first matching entry). -/
def createSimilarityAnn (sg : SceneGraph) (selectedObjectId : Option Nat)
    (candidateId : Nat) (ts : String) (anns : List SimAnn) : List SimAnn :=
  match selectedObjectId with
  | none => anns
  | some sel =>
    if sel = candidateId then anns
    else
      match sg.objects.find? (fun o => o.id == sel),
            sg.objects.find? (fun o => o.id == candidateId) with
      | some obj1, some obj2 =>
        if anns.any (matchesPair sel candidateId) then
          eraseFirst (matchesPair sel candidateId) anns
        else
          anns ++ [simEntry sel candidateId obj1 obj2 ts]
      | _, _ => anns

/-- Whether the list holds the unordered pair `{a, b}`. -/
def containsPair (anns : List SimAnn) (a b : Nat) : Bool :=
  anns.any (matchesPair a b)

/-- Number of entries holding the unordered pair `{a, b}`. -/
def pairCount (anns : List SimAnn) (a b : Nat) : Nat :=
  (anns.filter (matchesPair a b)).length

/-!
## Relationship display classification (`updateRelationshipsDisplay`)
-/

def listIsPrefixB : List Char → List Char → Bool
  | [], _ => true
  | _ :: _, [] => false
  | a :: as, b :: bs => a == b && listIsPrefixB as bs

def listIsInfixB (sub : List Char) : List Char → Bool
  | [] => listIsPrefixB sub []
  | c :: cs => listIsPrefixB sub (c :: cs) || listIsInfixB sub cs

/-- JS `String.prototype.toLowerCase`: lower-case character by character. -/
def jsToLower (s : String) : String :=
  ⟨s.toList.map Char.toLower⟩

/-- JS `String.prototype.includes`: a contiguous-substring check. -/
def strIncludes (s sub : String) : Bool :=
  listIsInfixB sub.toList s.toList

/-- `relationships.filter(rel => rel.subject_id === objectId)`. -/
def outgoingRelationships (sg : SceneGraph) (objectId : Nat) : List SGRel :=
  sg.relationships.filter (fun r => r.subject_id == objectId)

/-- The in-between classification: from the outgoing relationships, those whose
lowercased name contains "between" and that carry at least two recipients
(`rel.recipient_id && rel.recipient_id.length >= 2`; an absent list is falsy). -/
def inBetweenRelationships (sg : SceneGraph) (objectId : Nat) : List SGRel :=
  (outgoingRelationships sg objectId).filter (fun r =>
    strIncludes (jsToLower r.name) "between" &&
      match r.recipient_id with
      | some l => decide (l.length ≥ 2)
      | none => false)

/-!
## Export / import wire format

`exportAnnotations` always writes every section; `Option` fields model JSON
fields that an imported document may lack (absent or `null`, both falsy).
Write-only export fields that `processAnnotationFile` never reads
(`timestamp`, `annotation_type`, the `summary` blocks and the `total`
counters) are omitted from the model.
-/

structure PredAttrItem where
  id : Nat
  object_id : Nat
  name : String
  type : Option String
  validation : Option String
deriving Repr, DecidableEq

structure PredRelItem where
  index : Nat
  subject_id : Nat
  predicate : String
  object_ids : List Nat
  validation : Option String
deriving Repr, DecidableEq

structure SimilaritySection where
  annotations : Option (List SimAnn)
deriving Repr, DecidableEq

structure PredAttrSection where
  items : Option (List PredAttrItem)
deriving Repr, DecidableEq

structure AttrSection where
  predicted : Option PredAttrSection
  added : Option (List AddedAttr)
deriving Repr, DecidableEq

structure PredRelSection where
  items : Option (List PredRelItem)
deriving Repr, DecidableEq

structure RelSection where
  predicted : Option PredRelSection
  added : Option (List AddedRel)
deriving Repr, DecidableEq

structure AnnotationDoc where
  scene_id : Option String
  similarity : Option SimilaritySection
  attributes : Option AttrSection
  relationships : Option RelSection
deriving Repr, DecidableEq

/-- JS `v || null` on a string-or-undefined value: the empty string is falsy. -/
def exportValidation (v : Option String) : Option String :=
  match v with
  | some s => if s = "" then none else some s
  | none => none

/-- JS string-or-undefined truthiness (`if (attr.validation)`). -/
def jsTruthyStr (v : Option String) : Bool :=
  match v with
  | some s => s ≠ ""
  | none => false

/-- JS `a?.id || b` for the exported `scene_id`. -/
def jsStrOr (a : Option String) (b : String) : String :=
  match a with
  | some s => if s = "" then b else s
  | none => b

/-- `predictedAttrs.map(attr => ({id, object_id, name, type, validation}))`. -/
def mkPredAttrItems (m : ObjMap) (attrs : List SGAttr) : List PredAttrItem :=
  attrs.map (fun a =>
    { id := a.id
      object_id := a.object_id
      name := a.name
      type := a.type
      validation := exportValidation (objGet m a.id) })

/-- `predictedRels.map((rel, idx) => ({index: idx, ...}))`, enumerating from
`i`. -/
def mkPredRelItems (m : ObjMap) (i : Nat) (rels : List SGRel) : List PredRelItem :=
  match rels with
  | [] => []
  | r :: rest =>
    { index := i
      subject_id := r.subject_id
      predicate := r.name
      object_ids := r.recipient_id.getD []
      validation := exportValidation (objGet m i) } :: mkPredRelItems m (i + 1) rest

/-- `exportAnnotations()`: build the annotation document from the session. -/
def exportAnnotations (sg : Option SceneGraph) (currentSceneId : String)
    (st : AnnState) : AnnotationDoc :=
  let predictedAttrs := match sg with | some g => g.attributes | none => []
  let predictedRels := match sg with | some g => g.relationships | none => []
  { scene_id := some (jsStrOr (sg.map SceneGraph.id) currentSceneId)
    similarity := some { annotations := some st.similarityAnnotations }
    attributes := some
      { predicted := some { items := some (mkPredAttrItems st.attributeValidations predictedAttrs) }
        added := some st.additionalAttributes }
    relationships := some
      { predicted := some { items := some (mkPredRelItems st.relationshipValidations 0 predictedRels) }
        added := some st.additionalRelationships } }

/-- Generic form of the import loops rebuilding a validation map:
`items.forEach(it => { if (it.validation) map[key(it)] = it.validation; })`
starting from `{}`. -/
def buildValidations (pairs : List (Nat × Option String)) : ObjMap :=
  pairs.foldl
    (fun m p =>
      match p.2 with
      | some v => if v = "" then m else objSet m p.1 v
      | none => m)
    []

def buildAttrValidations (items : List PredAttrItem) : ObjMap :=
  buildValidations (items.map (fun it => (it.id, it.validation)))

def buildRelValidations (items : List PredRelItem) : ObjMap :=
  buildValidations (items.map (fun it => (it.index, it.validation)))

/-- The section-by-section replacement performed by `processAnnotationFile`
after the optional scene-mismatch confirmation. -/
def applyImport (d : AnnotationDoc) (st : AnnState) : AnnState :=
  let st1 :=
    match d.similarity with
    | some sec =>
      match sec.annotations with
      | some l => { st with similarityAnnotations := l }
      | none => st
    | none => st
  let st2 :=
    match d.attributes with
    | some a =>
      let sA :=
        match a.predicted with
        | some p =>
          match p.items with
          | some items => { st1 with attributeValidations := buildAttrValidations items }
          | none => st1
        | none => st1
      match a.added with
      | some l => { sA with additionalAttributes := l }
      | none => sA
    | none => st1
  match d.relationships with
  | some rsec =>
    let sR :=
      match rsec.predicted with
      | some p =>
        match p.items with
        | some items => { st2 with relationshipValidations := buildRelValidations items }
        | none => st2
      | none => st2
    match rsec.added with
    | some l => { sR with additionalRelationships := l }
    | none => sR
  | none => st2

/-- `processAnnotationFile`: when the document names a different scene the user
is asked to confirm (`userConfirms`); declining aborts the import.  A falsy
(absent or empty) `scene_id`, or no loaded scene graph, skips the check. -/
def processAnnotationFile (sg : Option SceneGraph) (d : AnnotationDoc)
    (userConfirms : Bool) (st : AnnState) : AnnState :=
  let mismatch :=
    match d.scene_id, sg with
    | some ds, some g => if ds = "" then false else decide (ds ≠ g.id)
    | _, _ => false
  if mismatch && !userConfirms then st else applyImport d st

/-!
## Rotation-matrix-to-quaternion conversion

Inline in `convertMultiscanToSceneGraph`; the spec names it
`quaternionFromRotationMatrix`.  JS numbers are modelled as `Option ℝ`:
`some x` is a finite value, `none` any non-finite one (NaN or ±Infinity).
Arithmetic is exact real arithmetic (float rounding/overflow is not
modelled); the operations that can turn finite operands non-finite on this
code path — division by zero and the square root of a negative number — map
to `none`, and `none` propagates through every operation as NaN does.
-/

abbrev JSNum := Option ℝ

noncomputable def jsSqrt (x : JSNum) : JSNum :=
  match x with
  | some v => if v < 0 then none else some (Real.sqrt v)
  | none => none

noncomputable def jsDiv (a b : JSNum) : JSNum :=
  match a, b with
  | some x, some y => if y = 0 then none else some (x / y)
  | _, _ => none

noncomputable def jsMul (a b : JSNum) : JSNum :=
  match a, b with
  | some x, some y => some (x * y)
  | _, _ => none

/-- The nine entries `m00 .. m22` extracted from `normalizedAxes`. -/
structure Mat3 where
  m00 : JSNum
  m01 : JSNum
  m02 : JSNum
  m10 : JSNum
  m11 : JSNum
  m12 : JSNum
  m20 : JSNum
  m21 : JSNum
  m22 : JSNum

/-- `[m00, ..., m22].every(v => isFinite(v))`. -/
def matrixValid (M : Mat3) : Bool :=
  M.m00.isSome && M.m01.isSome && M.m02.isSome &&
  M.m10.isSome && M.m11.isSome && M.m12.isSome &&
  M.m20.isSome && M.m21.isSome && M.m22.isSome

/-- The trace-based branch computation on finite entries, producing
`(qx, qy, qz, qw)` before the final finiteness check. -/
noncomputable def computeQuatRaw (m00 m01 m02 m10 m11 m12 m20 m21 m22 : ℝ) :
    JSNum × JSNum × JSNum × JSNum :=
  let trace := m00 + m11 + m22
  if 0 < trace then
    let s := jsDiv (some 0.5) (jsSqrt (some (trace + 1)))
    (jsMul (some (m21 - m12)) s, jsMul (some (m02 - m20)) s,
     jsMul (some (m10 - m01)) s, jsDiv (some 0.25) s)
  else if m11 < m00 ∧ m22 < m00 then
    let s := jsMul (some 2) (jsSqrt (some (1 + m00 - m11 - m22)))
    (jsMul (some 0.25) s, jsDiv (some (m01 + m10)) s,
     jsDiv (some (m02 + m20)) s, jsDiv (some (m21 - m12)) s)
  else if m22 < m11 then
    let s := jsMul (some 2) (jsSqrt (some (1 + m11 - m00 - m22)))
    (jsDiv (some (m01 + m10)) s, jsMul (some 0.25) s,
     jsDiv (some (m12 + m21)) s, jsDiv (some (m02 - m20)) s)
  else
    let s := jsMul (some 2) (jsSqrt (some (1 + m22 - m00 - m11)))
    (jsDiv (some (m02 + m20)) s, jsDiv (some (m12 + m21)) s,
     jsMul (some 0.25) s, jsDiv (some (m10 - m01)) s)

/-- Full conversion: defaults `(qx,qy,qz,qw) = (0,0,0,1)` survive when the
matrix has a non-finite entry or the computed quaternion has a non-finite
component; the result is the `rotation` array `[qx, qy, qz, qw]`. -/
noncomputable def quaternionFromRotationMatrix (M : Mat3) : ℝ × ℝ × ℝ × ℝ :=
  match M.m00, M.m01, M.m02, M.m10, M.m11, M.m12, M.m20, M.m21, M.m22 with
  | some a00, some a01, some a02, some a10, some a11, some a12,
    some a20, some a21, some a22 =>
    match computeQuatRaw a00 a01 a02 a10 a11 a12 a20 a21 a22 with
    | (some qx, some qy, some qz, some qw) => (qx, qy, qz, qw)
    | _ => (0, 0, 0, 1)
  | _, _, _, _, _, _, _, _, _ => (0, 0, 0, 1)

def identityMat3 : Mat3 :=
  { m00 := some 1, m01 := some 0, m02 := some 0
    m10 := some 0, m11 := some 1, m12 := some 0
    m20 := some 0, m21 := some 0, m22 := some 1 }

/-!
## MultiScan spatial-relationship inference ("on top of" edges)

From the pairwise loop at the end of `convertMultiscanToSceneGraph`.
Coordinates are `(x, y, z)` with Y the up axis, as in the code.
-/

structure MSBBox where
  center : ℝ × ℝ × ℝ
  half_dims : ℝ × ℝ × ℝ

structure MSObject where
  id : Nat
  bbox : MSBBox

structure MSRel where
  subject : Nat
  predicate : String
  object : Nat
deriving Repr, DecidableEq

/-- `const verticalDist = c1[1] - c2[1]` (Y is the up axis). -/
def verticalDistOf (obj1 obj2 : MSObject) : ℝ :=
  obj1.bbox.center.2.1 - obj2.bbox.center.2.1

/-- `const horizontalDist = Math.sqrt((c1[0]-c2[0])^2 + (c1[2]-c2[2])^2)`. -/
noncomputable def horizontalDistOf (obj1 obj2 : MSObject) : ℝ :=
  Real.sqrt ((obj1.bbox.center.1 - obj2.bbox.center.1) ^ 2 +
    (obj1.bbox.center.2.2 - obj2.bbox.center.2.2) ^ 2)

/-- `Math.max(h1[0] + h2[0], h1[2] + h2[2])`. -/
def horizontalExtent (obj1 obj2 : MSObject) : ℝ :=
  max (obj1.bbox.half_dims.1 + obj2.bbox.half_dims.1)
    (obj1.bbox.half_dims.2.2 + obj2.bbox.half_dims.2.2)

/-- `const verticalOverlap = (h1[1] + h2[1]) - Math.abs(verticalDist)`. -/
def verticalOverlapOf (obj1 obj2 : MSObject) : ℝ :=
  (obj1.bbox.half_dims.2.1 + obj2.bbox.half_dims.2.1) - |verticalDistOf obj1 obj2|

/-- The per-pair body of the inference loop: the edges pushed for the ordered
pair `(obj1, obj2)` (with `obj1` earlier in the object list). -/
noncomputable def onTopEdges (obj1 obj2 : MSObject) : List MSRel :=
  if horizontalDistOf obj1 obj2 < horizontalExtent obj1 obj2 then
    if verticalOverlapOf obj1 obj2 < 0.1 ∧ |verticalDistOf obj1 obj2| < 0.5 then
      if 0.05 < verticalDistOf obj1 obj2 then
        [{ subject := obj1.id, predicate := "on top of", object := obj2.id }]
      else if verticalDistOf obj1 obj2 < -0.05 then
        [{ subject := obj2.id, predicate := "on top of", object := obj1.id }]
      else []
    else []
  else []

/-- The double loop `for i; for j > i` over the object list. -/
noncomputable def inferOnTopOf : List MSObject → List MSRel
  | [] => []
  | o :: rest => (rest.map (onTopEdges o)).flatten ++ inferOnTopOf rest

/-!
## Binary PLY decoding (`parseBinaryPLY`)

The byte buffer is a `List Nat` of bytes; `headerLength` is the offset of the
binary payload, so the `DataView` over the payload has length
`buf.length - headerLength`.  A `DataView` read past the end of the buffer
throws a `RangeError`, which `parseBinaryPLY` catches and rethrows: the model
returns `Except.error ()` exactly in that situation, and `Except.ok` when the
decode runs to completion.  Reads are little-endian.  Vertex coordinates are
decoded to exact rationals (every finite float is rational); a non-finite
float decodes to `none` and is replaced by `0` as in the code.  Colors go
through `sRGBToLinear`, whose `Math.pow(_, 2.4)` branch forces `ℝ`.
-/

/-- Little-endian byte-list to natural number. -/
def leNat : List Nat → Nat
  | [] => 0
  | b :: bs => b + 256 * leNat bs

/-- Checked read of `n` bytes at view offset `off` (view starts at `hl`),
combined little-endian; `none` models the `RangeError` of an out-of-bounds
`DataView` access. -/
def readLE (buf : List Nat) (hl off n : Nat) : Option Nat :=
  if off + n ≤ buf.length - hl then
    some (leNat ((List.range n).map (fun i => buf.getD (hl + off + i) 0)))
  else none

/-- Value of an IEEE-754 single-precision bit pattern: `none` for the
non-finite patterns (exponent all ones), otherwise the exact rational value. -/
def float32OfBits (w : Nat) : Option ℚ :=
  let sign : Nat := w / 2 ^ 31 % 2
  let exp : Nat := w / 2 ^ 23 % 2 ^ 8
  let frac : Nat := w % 2 ^ 23
  if exp = 255 then none
  else
    let mag : ℚ :=
      if exp = 0 then (frac : ℚ) * (2 : ℚ) ^ (-(149 : ℤ))
      else ((2 : ℚ) ^ (23 : ℕ) + (frac : ℚ)) * (2 : ℚ) ^ ((exp : ℤ) - 150)
    some (if sign = 1 then -mag else mag)

/-- Value of an IEEE-754 double-precision bit pattern. -/
def float64OfBits (w : Nat) : Option ℚ :=
  let sign : Nat := w / 2 ^ 63 % 2
  let exp : Nat := w / 2 ^ 52 % 2 ^ 11
  let frac : Nat := w % 2 ^ 52
  if exp = 2047 then none
  else
    let mag : ℚ :=
      if exp = 0 then (frac : ℚ) * (2 : ℚ) ^ (-(1074 : ℤ))
      else ((2 : ℚ) ^ (52 : ℕ) + (frac : ℚ)) * (2 : ℚ) ^ ((exp : ℤ) - 1075)
    some (if sign = 1 then -mag else mag)

/-- Two's-complement reading of a 32-bit word (`DataView.getInt32`). -/
def toSigned32 (w : Nat) : Int :=
  if w % 2 ^ 32 < 2 ^ 31 then ((w % 2 ^ 32 : Nat) : Int)
  else ((w % 2 ^ 32 : Nat) : Int) - 2 ^ 32

/-- `if (isNaN(x) || !isFinite(x)) x = 0`. -/
def sanitizeCoord (v : Option ℚ) : ℚ :=
  v.getD 0

/-- `sRGBToLinear`: `c <= 0.04045 ? c / 12.92 : Math.pow((c + 0.055) / 1.055, 2.4)`.
Inputs on this code path are quotients `byte / 255 ∈ [0, 1]`, so the `rpow`
base is positive. -/
noncomputable def sRGBToLinear (c : ℚ) : ℝ :=
  if c ≤ 0.04045 then (c : ℝ) / 12.92
  else Real.rpow (((c : ℝ) + 0.055) / 1.055) 2.4

structure PLYResult where
  points : List ℚ
  colors : List ℝ
  indices : List Int
  hasColors : Bool
  hasFaces : Bool

/-- One coordinate read: a float32 or float64 at the given view offset.
The outer `Option` is the bounds check, the inner one finiteness. -/
def readCoord (buf : List Nat) (hl : Nat) (xyzIsDouble : Bool) (o : Nat) :
    Option (Option ℚ) :=
  if xyzIsDouble then (readLE buf hl o 8).map float64OfBits
  else (readLE buf hl o 4).map float32OfBits

/-- The per-vertex color step: when a color offset exists
(`colorOffset >= 0` in the JS, `-1` modelled as `none`) and the
`offset + colorOffset + 4 <= byteLength` guard holds (the `+ 4` skips an
assumed alpha byte), push the three converted channels; the guard keeps the
three byte reads in bounds. -/
noncomputable def vertexColors (buf : List Nat) (hl : Nat) (hasColors : Bool)
    (colorOffset : Option Nat) (offset : Nat) (colors : List ℝ) : List ℝ :=
  match colorOffset with
  | some co =>
    if hasColors ∧ offset + co + 4 ≤ buf.length - hl then
      colors ++
        [sRGBToLinear ((buf.getD (hl + offset + co) 0 : ℚ) / 255),
         sRGBToLinear ((buf.getD (hl + offset + co + 1) 0 : ℚ) / 255),
         sRGBToLinear ((buf.getD (hl + offset + co + 2) 0 : ℚ) / 255)]
    else colors
  | none => colors

/-- The vertex loop (`for i = 0; i < vertexCount`), with `fuel` the remaining
iteration count.  The loop breaks (returning what it has) when fewer than
`bytesPerVertex` bytes remain. -/
noncomputable def parseVertexLoop (buf : List Nat) (hl : Nat) (hasColors : Bool)
    (bytesPerVertex : Nat) (colorOffset : Option Nat) (xOffset yOffset zOffset : Nat)
    (xyzIsDouble : Bool) :
    Nat → Nat → List ℚ → List ℝ → Except Unit (List ℚ × List ℝ × Nat)
  | 0, offset, points, colors => .ok (points, colors, offset)
  | fuel + 1, offset, points, colors =>
    if buf.length - hl < offset + bytesPerVertex then .ok (points, colors, offset)
    else
      match readCoord buf hl xyzIsDouble (offset + xOffset),
            readCoord buf hl xyzIsDouble (offset + yOffset),
            readCoord buf hl xyzIsDouble (offset + zOffset) with
      | some xv, some yv, some zv =>
        parseVertexLoop buf hl hasColors bytesPerVertex colorOffset
          xOffset yOffset zOffset xyzIsDouble fuel (offset + bytesPerVertex)
          (points ++ [sanitizeCoord xv, sanitizeCoord yv, sanitizeCoord zv])
          (vertexColors buf hl hasColors colorOffset offset colors)
      | _, _, _ => .error ()

/-- `points[v*3] === 0 && points[v*3+1] === 0 && points[v*3+2] === 0`. -/
def isOriginVertex (points : List ℚ) (v : Int) : Bool :=
  points.getD (v.toNat * 3) 0 == 0 &&
  points.getD (v.toNat * 3 + 1) 0 == 0 &&
  points.getD (v.toNat * 3 + 2) 0 == 0

/-- The face loop.  Each iteration reads the face's vertex count byte; a
triangle with all `12 + faceExtraBytes` payload bytes available is decoded
(and kept only when its indices are in range and no endpoint sits at the
origin), any other count in `1..9` is skipped, and anything else aborts the
loop.  All reads are guarded, so this loop never errors. -/
noncomputable def parseFaceLoop (buf : List Nat) (hl faceExtraBytes : Nat)
    (points : List ℚ) :
    Nat → Nat → List Int → Except Unit (List Int × Nat)
  | 0, offset, indices => .ok (indices, offset)
  | fuel + 1, offset, indices =>
    if buf.length - hl < offset + 1 then .ok (indices, offset)
    else
      match readLE buf hl offset 1 with
      | none => .error ()
      | some numVerts =>
        if numVerts = 3 ∧ offset + 1 + 12 + faceExtraBytes ≤ buf.length - hl then
          match readLE buf hl (offset + 1) 4, readLE buf hl (offset + 1 + 4) 4,
                readLE buf hl (offset + 1 + 8) 4 with
          | some w0, some w1, some w2 =>
            let v0 := toSigned32 w0
            let v1 := toSigned32 w1
            let v2 := toSigned32 w2
            let maxVertex : Int := ((points.length / 3 : Nat) : Int) - 1
            let indices :=
              if 0 ≤ v0 ∧ v0 ≤ maxVertex ∧ 0 ≤ v1 ∧ v1 ≤ maxVertex ∧
                  0 ≤ v2 ∧ v2 ≤ maxVertex then
                if isOriginVertex points v0 ∨ isOriginVertex points v1 ∨
                    isOriginVertex points v2 then indices
                else indices ++ [v0, v1, v2]
              else indices
            parseFaceLoop buf hl faceExtraBytes points fuel
              (offset + 1 + 12 + faceExtraBytes) indices
          | _, _, _ => .error ()
        else
          if 0 < numVerts ∧ numVerts < 10 then
            let offset := offset + 1 + numVerts * 4 + faceExtraBytes
            if buf.length - hl < offset then .ok (indices, offset)
            else parseFaceLoop buf hl faceExtraBytes points fuel offset indices
          else .ok (indices, offset)

/-- `parseBinaryPLY`.  Constructing the `DataView` itself throws when
`headerLength` exceeds the buffer length. -/
noncomputable def parseBinaryPLY (buf : List Nat) (headerLength vertexCount faceCount : Nat)
    (hasColors : Bool) (bytesPerVertex : Nat) (colorOffset : Option Nat)
    (xOffset yOffset zOffset : Nat) (xyzIsDouble : Bool) (faceExtraBytes : Nat) :
    Except Unit PLYResult :=
  if buf.length < headerLength then .error ()
  else
    match parseVertexLoop buf headerLength hasColors bytesPerVertex colorOffset
        xOffset yOffset zOffset xyzIsDouble vertexCount 0 [] [] with
    | .error e => .error e
    | .ok (points, colors, offset) =>
      match (if 0 < faceCount then
               parseFaceLoop buf headerLength faceExtraBytes points faceCount offset []
             else .ok ([], offset)) with
      | .error e => .error e
      | .ok (indices, _) =>
        .ok { points := points
              colors := colors
              indices := indices
              hasColors := hasColors && decide (0 < colors.length)
              hasFaces := decide (0 < faceCount) }

/-!
## Concrete instances used in the theorems
-/

/-- A session holding one similarity annotation and some validations,
with scene "scene_a" loaded. -/
def c1Session : Session :=
  { currentSceneId := some "scene_a"
    sceneGraphData := none
    ann :=
      { similarityAnnotations := [⟨1, 2, "chair", "chair", true, "t0"⟩]
        attributeValidations := [(7, "correct")]
        additionalAttributes := []
        relationshipValidations := [(0, "incorrect")]
        additionalRelationships := [] } }

def c1Graph : SceneGraph :=
  { id := "scene_b", objects := [], relationships := [], attributes := [] }

/-- Unit box (half-dims 0.5 everywhere) centered at up-axis position 0. -/
noncomputable def c3BoxA : MSObject :=
  { id := 1, bbox := { center := (0, 0, 0), half_dims := (0.5, 0.5, 0.5) } }

/-- Unit box centered at up-axis position 0.3, zero horizontal offset. -/
noncomputable def c3BoxB03 : MSObject :=
  { id := 2, bbox := { center := (0, 0.3, 0), half_dims := (0.5, 0.5, 0.5) } }

/-- Unit box centered at up-axis position 0.8, zero horizontal offset. -/
noncomputable def c3BoxB08 : MSObject :=
  { id := 2, bbox := { center := (0, 0.8, 0), half_dims := (0.5, 0.5, 0.5) } }

/-- Thin box (half-dims 0.2) centered at up-axis position 0. -/
noncomputable def c3BoxC : MSObject :=
  { id := 1, bbox := { center := (0, 0, 0), half_dims := (0.2, 0.2, 0.2) } }

/-- Thin box centered at up-axis position 0.5: vertical center separation
exactly 0.5. -/
noncomputable def c3BoxD : MSObject :=
  { id := 2, bbox := { center := (0, 0.5, 0), half_dims := (0.2, 0.2, 0.2) } }

/-- The binary payload of the C2 scenario: two 15-byte vertex records, each
three little-endian float32 coordinates followed by three uchar color bytes.
Bytes 0–14 encode `(1.0, 2.0, 3.0, 255, 0, 0)` and bytes 15–29 encode
`(4.0, 5.0, 6.0, 0, 255, 0)` (e.g. `1.0f = 0x3F800000` is `[0,0,128,63]`).
The header `x,y,z:float32, red,green,blue:uchar` yields `bytesPerVertex = 15`,
coordinate offsets `0/4/8`, and `colorOffset = 12`. -/
def c2Buffer : List Nat :=
  [0, 0, 128, 63, 0, 0, 0, 64, 0, 0, 64, 64, 255, 0, 0,
   0, 0, 128, 64, 0, 0, 160, 64, 0, 0, 192, 64, 0, 255, 0]

/-- A 25-byte buffer: one 12-byte vertex record `(1.0, 2.0, 3.0)` followed by
one complete 13-byte triangle face record with vertex count 3 and indices
`(1, 2, 3)` — all out of range, since only vertex 0 exists. -/
def c7Buffer : List Nat :=
  [0, 0, 128, 63, 0, 0, 0, 64, 0, 0, 64, 64,
   3, 1, 0, 0, 0, 2, 0, 0, 0, 3, 0, 0, 0]

/-- A matrix with one non-finite entry. -/
def c6NaNMat : Mat3 :=
  { m00 := none, m01 := some 0, m02 := some 0
    m10 := some 0, m11 := some 1, m12 := some 0
    m20 := some 0, m21 := some 0, m22 := some 1 }

/-- A one-attribute, one-relationship scene for the round-trip witness. -/
def c4Graph : SceneGraph :=
  { id := "s"
    objects := [{ id := 1, labels := ["chair"] }]
    relationships := [{ subject_id := 1, name := "near", recipient_id := some [2] }]
    attributes := [{ id := 7, object_id := 1, name := "wooden", type := none }] }

/-- A session state with one entry in every component. -/
def c4State : AnnState :=
  { similarityAnnotations := [⟨1, 2, "chair", "chair", true, "t0"⟩]
    attributeValidations := [(7, "correct")]
    additionalAttributes := [⟨100, 1, "soft", "t1"⟩]
    relationshipValidations := [(0, "incorrect")]
    additionalRelationships := [] }

/-- A two-object scene for the similarity-toggle witness. -/
def c5Graph : SceneGraph :=
  { id := "s"
    objects := [{ id := 1, labels := ["chair"] }, { id := 2, labels := ["chair"] }]
    relationships := []
    attributes := [] }

/-- A scene graph holding exactly the relationship of the C9 scenario:
subject 5, a given predicate, recipients `[3, 9]`. -/
def c9Graph (name : String) : SceneGraph :=
  { id := "s"
    objects := []
    relationships := [{ subject_id := 5, name := name, recipient_id := some [3, 9] }]
    attributes := [] }

end SceneAnnotator

namespace SceneAnnotator

/-!
## Association-map lemmas
-/

theorem objGet_append (m1 m2 : ObjMap) (k : Nat) :
    objGet (m1 ++ m2) k = ((objGet m1 k).rec (objGet m2 k) (fun v => some v)) := by
  induction m1 with
  | nil => simp [objGet]
  | cons p rest ih =>
    by_cases h : p.1 = k <;> simp [objGet, h, ih]

theorem objGet_map_set_ne (m : ObjMap) (k : Nat) (v : String) (k' : Nat) (h : k ≠ k') :
    objGet (m.map (fun p => if p.1 = k then (k, v) else p)) k' = objGet m k' := by
  induction m with
  | nil => simp [objGet]
  | cons p rest ih =>
    by_cases hp : p.1 = k
    · simp [objGet, hp, h, Ne.symm h, ih]
    · by_cases hk' : p.1 = k' <;> simp [objGet, hp, hk', Ne.symm h, ih]

theorem objGet_map_set_self (m : ObjMap) (k : Nat) (v : String)
    (h : objHas m k = true) : objGet (m.map (fun p => if p.1 = k then (k, v) else p)) k = some v := by
  induction m with
  | nil => simp [objHas, objGet] at h
  | cons p rest ih =>
    by_cases hp : p.1 = k
    · simp [objGet, hp]
    · have h' : objHas rest k = true := by
        simpa [objHas, objGet, hp] using h
      simp [objGet, hp, ih h']

theorem objGet_objSet (m : ObjMap) (k : Nat) (v : String) (k' : Nat) :
    objGet (objSet m k v) k' = if k = k' then some v else objGet m k' := by
  unfold objSet
  by_cases hhas : objHas m k
  · by_cases hk : k = k'
    · subst hk
      simp [hhas, objGet_map_set_self m k v hhas]
    · simp [hhas, hk, objGet_map_set_ne m k v k' hk]
  · have hnone : objGet m k = none := by
      rcases h : objGet m k with _ | w
      · rfl
      · exact absurd (by simp [objHas, h]) hhas
    by_cases hk : k = k'
    · subst hk
      simp [hhas, objGet_append, hnone, objGet]
    · simp [hhas, hk, objGet_append, objGet]
      rcases h' : objGet m k' with _ | w <;> simp [Ne.symm hk, hk]

theorem objGet_objDelete (m : ObjMap) (k k' : Nat) :
    objGet (objDelete m k) k' = if k = k' then none else objGet m k' := by
  induction m with
  | nil => simp [objDelete, objGet]
  | cons p rest ih =>
    unfold objDelete at ih ⊢
    by_cases hp : p.1 = k
    · have hfilter :
          List.filter (fun q => decide (q.1 ≠ k)) (p :: rest) =
            List.filter (fun q => decide (q.1 ≠ k)) rest := by
        simp [List.filter_cons, hp]
      rw [hfilter, ih]
      by_cases hk : k = k'
      · simp [hk]
      · have hpk' : p.1 ≠ k' := by rw [hp]; exact hk
        simp [objGet, hk, hpk']
    · have hfilter :
          List.filter (fun q => decide (q.1 ≠ k)) (p :: rest) =
            p :: List.filter (fun q => decide (q.1 ≠ k)) rest := by
        simp [List.filter_cons, hp]
      rw [hfilter]
      by_cases hk' : p.1 = k'
      · have hkk : ¬ k = k' := fun h => hp (hk'.trans h.symm)
        simp [objGet, hk', hkk]
      · simp [objGet, hk']
        simpa using ih

/-- The two validation togglers have literally the same body. -/
theorem validateRelationship_eq_validateAttribute :
    validateRelationship = validateAttribute := rfl

theorem validate_twice_lookup_self (m : ObjMap) (k : Nat) (s : String) :
    objGet (validateAttribute (validateAttribute m k s) k s) k =
      if objGet m k = some s then some s else none := by
  by_cases h : objGet m k = some s
  · have h1 : validateAttribute m k s = objDelete m k := by simp [validateAttribute, h]
    have h2 : objGet (objDelete m k) k = none := by simp [objGet_objDelete]
    have h3 : validateAttribute (objDelete m k) k s = objSet (objDelete m k) k s := by
      simp [validateAttribute, h2]
    simp [h, h1, h3, objGet_objSet]
  · have h1 : validateAttribute m k s = objSet m k s := by simp [validateAttribute, h]
    have h2 : objGet (objSet m k s) k = some s := by simp [objGet_objSet]
    have h3 : validateAttribute (objSet m k s) k s = objDelete (objSet m k s) k := by
      simp [validateAttribute, h2]
    simp [h, h1, h3, objGet_objDelete]

theorem validate_twice_lookup_other (m : ObjMap) (k : Nat) (s : String)
    (k' : Nat) (h : k' ≠ k) :
    objGet (validateAttribute (validateAttribute m k s) k s) k' = objGet m k' := by
  have step : ∀ m' : ObjMap, objGet (validateAttribute m' k s) k' = objGet m' k' := by
    intro m'
    unfold validateAttribute
    by_cases hm : objGet m' k = some s
    · simp [hm, objGet_objDelete, Ne.symm h]
    · simp [hm, objGet_objSet, Ne.symm h]
  rw [step, step]

/-- C8 (amended): `validateAttribute(attrId, status)` deletes the entry when it
currently equals `status` and otherwise sets it; applying it twice with the
same status never touches other keys and leaves the key at its original value
when that value was absent or already `status`, but an entry holding a
different value is cleared (set then toggle-off), not restored.
`validateRelationship` behaves identically on its index-keyed map. -/
theorem C8_validateAttribute_twice (m : ObjMap) (k : Nat) (s : String) :
    (∀ k', k' ≠ k →
      objGet (validateAttribute (validateAttribute m k s) k s) k' = objGet m k') ∧
    ((objGet m k = some s ∨ objGet m k = none) →
      mapEqv (validateAttribute (validateAttribute m k s) k s) m) ∧
    (∀ v, objGet m k = some v → v ≠ s →
      objGet (validateAttribute (validateAttribute m k s) k s) k = none) ∧
    (∀ k', k' ≠ k →
      objGet (validateRelationship (validateRelationship m k s) k s) k' = objGet m k') ∧
    ((objGet m k = some s ∨ objGet m k = none) →
      mapEqv (validateRelationship (validateRelationship m k s) k s) m) ∧
    (∀ v, objGet m k = some v → v ≠ s →
      objGet (validateRelationship (validateRelationship m k s) k s) k = none) := by
  have hother := validate_twice_lookup_other m k s
  have hself := validate_twice_lookup_self m k s
  have hrestore : (objGet m k = some s ∨ objGet m k = none) →
      mapEqv (validateAttribute (validateAttribute m k s) k s) m := by
    rintro (h | h) k' <;>
    · by_cases hk : k' = k
      · subst hk; rw [hself]; simp [h]
      · exact hother k' hk
  have hclear : ∀ v, objGet m k = some v → v ≠ s →
      objGet (validateAttribute (validateAttribute m k s) k s) k = none := by
    intro v hv hvs
    rw [hself]
    have : ¬ objGet m k = some s := by
      rw [hv]; simpa using fun h => hvs h
    simp [this]
  rw [validateRelationship_eq_validateAttribute]
  exact ⟨hother, hrestore, hclear, hother, hrestore, hclear⟩

/-- C8 witness: concrete applications of `C8_validateAttribute_twice`, with a
present-and-equal entry restored, an untouched other key, and an
opposite-status entry cleared. -/
theorem C8_validateAttribute_twice_witness :
    ((2 : Nat) ≠ 1 ∧
      objGet (validateAttribute (validateAttribute [(1, "correct"), (2, "incorrect")] 1 "correct") 1 "correct") 2 =
        objGet [(1, "correct"), (2, "incorrect")] 2) ∧
    ((objGet [(1, "correct"), (2, "incorrect")] 1 = some "correct" ∨
        objGet [(1, "correct"), (2, "incorrect")] 1 = none) ∧
      mapEqv (validateAttribute (validateAttribute [(1, "correct"), (2, "incorrect")] 1 "correct") 1 "correct")
        [(1, "correct"), (2, "incorrect")]) ∧
    (objGet [(1, "incorrect")] 1 = some "incorrect" ∧ "incorrect" ≠ "correct" ∧
      objGet (validateRelationship (validateRelationship [(1, "incorrect")] 1 "correct") 1 "correct") 1 = none) :=
  ⟨⟨by decide,
    (C8_validateAttribute_twice [(1, "correct"), (2, "incorrect")] 1 "correct").1 2 (by decide)⟩,
   ⟨Or.inl (by rfl),
    (C8_validateAttribute_twice [(1, "correct"), (2, "incorrect")] 1 "correct").2.1 (Or.inl (by rfl))⟩,
   ⟨by rfl, by decide,
    (C8_validateAttribute_twice [(1, "incorrect")] 1 "correct").2.2.2.2.2 "incorrect" (by rfl) (by decide)⟩⟩

/-- C8 counterexample: a key validated `incorrect`, toggled twice with
`correct`, ends with no entry at all — the original map is not restored, so
the claim's "restores the validation map to its original value" fails. -/
theorem C8_counterexample :
    validateAttribute (validateAttribute [(1, "incorrect")] 1 "correct") 1 "correct" = [] ∧
    ¬ mapEqv (validateAttribute (validateAttribute [(1, "incorrect")] 1 "correct") 1 "correct")
        [(1, "incorrect")] := by
  constructor
  · rfl
  · intro h
    have h1 := h 1
    simp [validateAttribute, objSet, objDelete, objHas, objGet] at h1

/-!
### Import: absent sections (C10) and helper field lemmas
-/

theorem applyImport_simField (d : AnnotationDoc) (st : AnnState) :
    (applyImport d st).similarityAnnotations =
      (d.similarity.bind SimilaritySection.annotations).getD st.similarityAnnotations := by
  obtain ⟨sid, sim, attrs, rels⟩ := d
  rcases sim with _ | ⟨_ | siml⟩ <;>
    rcases attrs with _ | ⟨_ | ⟨_ | ail⟩, _ | aal⟩ <;>
    rcases rels with _ | ⟨_ | ⟨_ | ril⟩, _ | ral⟩ <;>
    simp [applyImport]

theorem applyImport_attrValField (d : AnnotationDoc) (st : AnnState) :
    (applyImport d st).attributeValidations =
      (((d.attributes.bind AttrSection.predicted).bind PredAttrSection.items).map
        buildAttrValidations).getD st.attributeValidations := by
  obtain ⟨sid, sim, attrs, rels⟩ := d
  rcases sim with _ | ⟨_ | siml⟩ <;>
    rcases attrs with _ | ⟨_ | ⟨_ | ail⟩, _ | aal⟩ <;>
    rcases rels with _ | ⟨_ | ⟨_ | ril⟩, _ | ral⟩ <;>
    simp [applyImport]

theorem applyImport_addedAttrField (d : AnnotationDoc) (st : AnnState) :
    (applyImport d st).additionalAttributes =
      (d.attributes.bind AttrSection.added).getD st.additionalAttributes := by
  obtain ⟨sid, sim, attrs, rels⟩ := d
  rcases sim with _ | ⟨_ | siml⟩ <;>
    rcases attrs with _ | ⟨_ | ⟨_ | ail⟩, _ | aal⟩ <;>
    rcases rels with _ | ⟨_ | ⟨_ | ril⟩, _ | ral⟩ <;>
    simp [applyImport]

theorem applyImport_relValField (d : AnnotationDoc) (st : AnnState) :
    (applyImport d st).relationshipValidations =
      (((d.relationships.bind RelSection.predicted).bind PredRelSection.items).map
        buildRelValidations).getD st.relationshipValidations := by
  obtain ⟨sid, sim, attrs, rels⟩ := d
  rcases sim with _ | ⟨_ | siml⟩ <;>
    rcases attrs with _ | ⟨_ | ⟨_ | ail⟩, _ | aal⟩ <;>
    rcases rels with _ | ⟨_ | ⟨_ | ril⟩, _ | ral⟩ <;>
    simp [applyImport]

theorem applyImport_addedRelField (d : AnnotationDoc) (st : AnnState) :
    (applyImport d st).additionalRelationships =
      (d.relationships.bind RelSection.added).getD st.additionalRelationships := by
  obtain ⟨sid, sim, attrs, rels⟩ := d
  rcases sim with _ | ⟨_ | siml⟩ <;>
    rcases attrs with _ | ⟨_ | ⟨_ | ail⟩, _ | aal⟩ <;>
    rcases rels with _ | ⟨_ | ⟨_ | ril⟩, _ | ral⟩ <;>
    simp [applyImport]

theorem processAnnotationFile_cases (sg : Option SceneGraph) (d : AnnotationDoc)
    (uc : Bool) (st : AnnState) :
    processAnnotationFile sg d uc st = st ∨
      processAnnotationFile sg d uc st = applyImport d st := by
  unfold processAnnotationFile
  by_cases h :
      ((match d.scene_id, sg with
        | some ds, some g => if ds = "" then false else decide (ds ≠ g.id)
        | _, _ => false) && !uc) = true
  · rw [if_pos h]
    exact Or.inl rfl
  · rw [if_neg h]
    exact Or.inr rfl

/-- C10: importing a document leaves every state component whose section is
absent (or `null`) unchanged: no `similarity.annotations` keeps the similarity
list, no `attributes.predicted.items` keeps the attribute-validation map, no
`attributes.added` keeps the added-attribute list, and likewise for the two
relationships sections. -/
theorem C10_import_preserves_absent_sections (sg : Option SceneGraph)
    (d : AnnotationDoc) (uc : Bool) (st : AnnState) :
    (d.similarity.bind SimilaritySection.annotations = none →
      (processAnnotationFile sg d uc st).similarityAnnotations = st.similarityAnnotations) ∧
    ((d.attributes.bind AttrSection.predicted).bind PredAttrSection.items = none →
      (processAnnotationFile sg d uc st).attributeValidations = st.attributeValidations) ∧
    (d.attributes.bind AttrSection.added = none →
      (processAnnotationFile sg d uc st).additionalAttributes = st.additionalAttributes) ∧
    ((d.relationships.bind RelSection.predicted).bind PredRelSection.items = none →
      (processAnnotationFile sg d uc st).relationshipValidations = st.relationshipValidations) ∧
    (d.relationships.bind RelSection.added = none →
      (processAnnotationFile sg d uc st).additionalRelationships = st.additionalRelationships) := by
  rcases processAnnotationFile_cases sg d uc st with h | h <;> rw [h]
  · exact ⟨fun _ => rfl, fun _ => rfl, fun _ => rfl, fun _ => rfl, fun _ => rfl⟩
  · refine ⟨fun ha => ?_, fun ha => ?_, fun ha => ?_, fun ha => ?_, fun ha => ?_⟩
    · rw [applyImport_simField, ha]; rfl
    · rw [applyImport_attrValField, ha]; rfl
    · rw [applyImport_addedAttrField, ha]; rfl
    · rw [applyImport_relValField, ha]; rfl
    · rw [applyImport_addedRelField, ha]; rfl

/-- C10 witness: a document with a `scene_id` but no sections at all leaves a
non-empty state fully unchanged. -/
theorem C10_import_preserves_absent_sections_witness :
    (((⟨some "other", none, none, none⟩ : AnnotationDoc).similarity.bind
        SimilaritySection.annotations = none) ∧
      (processAnnotationFile (some c1Graph) ⟨some "other", none, none, none⟩ false
          c1Session.ann).similarityAnnotations = c1Session.ann.similarityAnnotations) ∧
    (processAnnotationFile (some c1Graph) ⟨some "other", none, none, none⟩ false
        c1Session.ann).attributeValidations = c1Session.ann.attributeValidations ∧
    (processAnnotationFile (some c1Graph) ⟨some "other", none, none, none⟩ false
        c1Session.ann).additionalAttributes = c1Session.ann.additionalAttributes ∧
    (processAnnotationFile (some c1Graph) ⟨some "other", none, none, none⟩ false
        c1Session.ann).relationshipValidations = c1Session.ann.relationshipValidations ∧
    (processAnnotationFile (some c1Graph) ⟨some "other", none, none, none⟩ false
        c1Session.ann).additionalRelationships = c1Session.ann.additionalRelationships :=
  ⟨⟨rfl,
    (C10_import_preserves_absent_sections (some c1Graph) ⟨some "other", none, none, none⟩
      false c1Session.ann).1 rfl⟩,
   (C10_import_preserves_absent_sections (some c1Graph) ⟨some "other", none, none, none⟩
      false c1Session.ann).2.1 rfl,
   (C10_import_preserves_absent_sections (some c1Graph) ⟨some "other", none, none, none⟩
      false c1Session.ann).2.2.1 rfl,
   (C10_import_preserves_absent_sections (some c1Graph) ⟨some "other", none, none, none⟩
      false c1Session.ann).2.2.2.1 rfl,
   (C10_import_preserves_absent_sections (some c1Graph) ⟨some "other", none, none, none⟩
      false c1Session.ann).2.2.2.2 rfl⟩

/-!
### In-between relationship classification (C9)
-/

/-- C9: the relationship `{subject_id: 5, name, recipient_id: [3, 9]}` with
"between" in its lowercased predicate is classified in-between when object 5
is queried — returned whole, so its displayed neighbors are the recipients 3
and 9 — and is not classified in-between when object 3 (a recipient, not the
subject) is queried. -/
theorem C9_inBetween_classification (name : String)
    (h : strIncludes (jsToLower name) "between" = true) :
    inBetweenRelationships (c9Graph name) 5 =
      [{ subject_id := 5, name := name, recipient_id := some [3, 9] }] ∧
    inBetweenRelationships (c9Graph name) 3 = [] := by
  constructor
  · simp [inBetweenRelationships, outgoingRelationships, c9Graph, List.filter_cons, h]
  · simp [inBetweenRelationships, outgoingRelationships, c9Graph, List.filter_cons]

/-- C9 witness: the scenario's literal predicate "between". -/
theorem C9_inBetween_classification_witness :
    (strIncludes (jsToLower "between") "between" = true) ∧
    inBetweenRelationships (c9Graph "between") 5 =
      [{ subject_id := 5, name := "between", recipient_id := some [3, 9] }] ∧
    inBetweenRelationships (c9Graph "between") 3 = [] :=
  ⟨by decide,
   (C9_inBetween_classification "between" (by decide)).1,
   (C9_inBetween_classification "between" (by decide)).2⟩

/-!
### Similarity toggling (C5)
-/

theorem matchesPair_true_iff (a b : Nat) (e : SimAnn) :
    matchesPair a b e = true ↔ (e.id1 = a ∧ e.id2 = b) ∨ (e.id2 = a ∧ e.id1 = b) := by
  simp [matchesPair]

theorem matchesPair_fun_comm (a b : Nat) : matchesPair a b = matchesPair b a := by
  funext e
  unfold matchesPair
  rw [Bool.or_comm]
  congr 1 <;> rw [Bool.and_comm]

/-- Two entries that both hold the pair `{a, b}` hold exactly the same
unordered pairs. -/
theorem matchesPair_congr (a b x y : Nat) (e e' : SimAnn)
    (he : matchesPair a b e = true) (he' : matchesPair a b e' = true) :
    (matchesPair x y e = true ↔ matchesPair x y e' = true) := by
  rcases (matchesPair_true_iff a b e).mp he with ⟨h1, h2⟩ | ⟨h1, h2⟩ <;>
    rcases (matchesPair_true_iff a b e').mp he' with ⟨g1, g2⟩ | ⟨g1, g2⟩ <;>
    simp [matchesPair_true_iff, h1, h2, g1, g2] <;> tauto

theorem eraseFirst_append_of_not_any (p : SimAnn → Bool) (l l' : List SimAnn)
    (h : l.any p = false) : eraseFirst p (l ++ l') = l ++ eraseFirst p l' := by
  induction l with
  | nil => simp
  | cons a rest ih =>
    rw [List.any_cons] at h
    have ha : p a = false := by
      cases hpa : p a <;> simp [hpa] at h ⊢
    have hrest : rest.any p = false := by
      cases hr : rest.any p <;> simp [ha, hr] at h ⊢
    simp [eraseFirst, ha, ih hrest]

theorem eraseFirst_decomp (p : SimAnn → Bool) (l : List SimAnn)
    (h : l.any p = true) :
    ∃ l1 e l2, l = l1 ++ e :: l2 ∧ p e = true ∧ l1.any p = false ∧
      eraseFirst p l = l1 ++ l2 := by
  induction l with
  | nil => simp at h
  | cons a rest ih =>
    by_cases ha : p a = true
    · exact ⟨[], a, rest, rfl, ha, rfl, by simp [eraseFirst, ha]⟩
    · have ha' : p a = false := by cases hpa : p a <;> simp [hpa] at ha ⊢
      have hrest : rest.any p = true := by
        rw [List.any_cons, ha'] at h
        simpa using h
      obtain ⟨l1, e, l2, hl, hpe, hl1, herase⟩ := ih hrest
      exact ⟨a :: l1, e, l2, by simp [hl], hpe,
        by simp [List.any_cons, ha', hl1],
        by simp [eraseFirst, ha', herase]⟩

theorem any_eraseFirst_false (p : SimAnn → Bool) (l : List SimAnn)
    (hc : (l.filter p).length ≤ 1) : (eraseFirst p l).any p = false := by
  induction l with
  | nil => simp [eraseFirst]
  | cons a rest ih =>
    by_cases ha : p a = true
    · have : (rest.filter p).length = 0 := by
        rw [List.filter_cons_of_pos ha] at hc
        simpa using hc
      have hnil : rest.filter p = [] := List.eq_nil_of_length_eq_zero this
      have : ∀ x ∈ rest, ¬ p x = true := by
        intro x hx hpx
        have : x ∈ rest.filter p := List.mem_filter.mpr ⟨hx, hpx⟩
        simp [hnil] at this
      simp [eraseFirst, ha]
      intro x hx
      have := this x hx
      cases hpx : p x <;> simp [hpx] at this ⊢
    · have ha' : p a = false := by cases hpa : p a <;> simp [hpa] at ha ⊢
      have hc' : (rest.filter p).length ≤ 1 := by
        rwa [List.filter_cons_of_neg (by simp [ha'])] at hc
      simp [eraseFirst, ha', List.any_cons, ih hc']

/-- C5: with distinct objects A and B present in the scene and at most one
stored entry for the pair (the state invariant behind "similarity set"),
toggling (A, B) twice leaves exactly the original unordered pairs, toggling
(A, B) and toggling (B, A) yield the same unordered pairs, and a self-pair or
a toggle with no selection changes nothing. -/
theorem C5_toggleSimilar_involutive (sg : SceneGraph) (A B : Nat)
    (ts ts' : String) (l : List SimAnn)
    (hAB : A ≠ B)
    (hA : (sg.objects.find? (fun o => o.id == A)).isSome = true)
    (hB : (sg.objects.find? (fun o => o.id == B)).isSome = true)
    (hcount : pairCount l A B ≤ 1) :
    (∀ x y, containsPair (createSimilarityAnn sg (some A) B ts'
        (createSimilarityAnn sg (some A) B ts l)) x y = true ↔
        containsPair l x y = true) ∧
    (∀ x y, containsPair (createSimilarityAnn sg (some A) B ts l) x y = true ↔
        containsPair (createSimilarityAnn sg (some B) A ts l) x y = true) ∧
    createSimilarityAnn sg (some A) A ts l = l ∧
    createSimilarityAnn sg none B ts l = l := by
  obtain ⟨oA, hoA⟩ := Option.isSome_iff_exists.mp hA
  obtain ⟨oB, hoB⟩ := Option.isSome_iff_exists.mp hB
  have hBA : B ≠ A := Ne.symm hAB
  have hentryAB : ∀ t, matchesPair A B (simEntry A B oA oB t) = true := by
    intro t; simp [matchesPair, simEntry]
  have hentryBA : ∀ t, matchesPair A B (simEntry B A oB oA t) = true := by
    intro t; simp [matchesPair, simEntry]
  refine ⟨?_, ?_, by simp [createSimilarityAnn], rfl⟩
  · -- double toggle
    by_cases hany : l.any (matchesPair A B) = true
    · have t1 : createSimilarityAnn sg (some A) B ts l =
          eraseFirst (matchesPair A B) l := by
        simp [createSimilarityAnn, hAB, hoA, hoB, hany]
      obtain ⟨l1, e, l2, hl, hpe, hl1, herase⟩ := eraseFirst_decomp _ _ hany
      have hany2 : (eraseFirst (matchesPair A B) l).any (matchesPair A B) = false :=
        any_eraseFirst_false _ _ hcount
      have t2 : createSimilarityAnn sg (some A) B ts'
          (eraseFirst (matchesPair A B) l) =
          eraseFirst (matchesPair A B) l ++ [simEntry A B oA oB ts'] := by
        simp [createSimilarityAnn, hAB, hoA, hoB, hany2]
      intro x y
      rw [t1, t2, herase, hl]
      have hcongr := matchesPair_congr A B x y _ e (hentryAB ts') hpe
      simp only [containsPair, List.any_append, List.any_cons, List.any_nil,
        Bool.or_eq_true, Bool.or_false]
      tauto
    · have hany' : l.any (matchesPair A B) = false := by
        cases h : l.any (matchesPair A B) <;> simp [h] at hany ⊢
      have t1 : createSimilarityAnn sg (some A) B ts l =
          l ++ [simEntry A B oA oB ts] := by
        simp [createSimilarityAnn, hAB, hoA, hoB, hany']
      have hany2 : (l ++ [simEntry A B oA oB ts]).any (matchesPair A B) = true := by
        simp [List.any_append, hentryAB ts]
      have t2 : createSimilarityAnn sg (some A) B ts'
          (l ++ [simEntry A B oA oB ts]) = l := by
        have herase2 : createSimilarityAnn sg (some A) B ts'
            (l ++ [simEntry A B oA oB ts]) =
            eraseFirst (matchesPair A B) (l ++ [simEntry A B oA oB ts]) := by
          simp [createSimilarityAnn, hAB, hoA, hoB, hany2]
        rw [herase2, eraseFirst_append_of_not_any _ _ _ hany']
        simp [eraseFirst, hentryAB ts]
      intro x y
      rw [t1, t2]
  · -- symmetry
    by_cases hany : l.any (matchesPair A B) = true
    · have hanyBA : l.any (matchesPair B A) = true := by
        rw [← matchesPair_fun_comm]; exact hany
      have t1 : createSimilarityAnn sg (some A) B ts l =
          eraseFirst (matchesPair A B) l := by
        simp [createSimilarityAnn, hAB, hoA, hoB, hany]
      have t2 : createSimilarityAnn sg (some B) A ts l =
          eraseFirst (matchesPair B A) l := by
        simp [createSimilarityAnn, hBA, hoA, hoB, hanyBA]
      rw [t1, t2, ← matchesPair_fun_comm]
      intro x y
      exact Iff.rfl
    · have hany' : l.any (matchesPair A B) = false := by
        cases h : l.any (matchesPair A B) <;> simp [h] at hany ⊢
      have hanyBA : l.any (matchesPair B A) = false := by
        rw [← matchesPair_fun_comm]; exact hany'
      have t1 : createSimilarityAnn sg (some A) B ts l =
          l ++ [simEntry A B oA oB ts] := by
        simp [createSimilarityAnn, hAB, hoA, hoB, hany']
      have t2 : createSimilarityAnn sg (some B) A ts l =
          l ++ [simEntry B A oB oA ts] := by
        simp [createSimilarityAnn, hBA, hoA, hoB, hanyBA]
      intro x y
      rw [t1, t2]
      have hcongr := matchesPair_congr A B x y _ _ (hentryAB ts) (hentryBA ts)
      simp only [containsPair, List.any_append, List.any_cons, List.any_nil,
        Bool.or_eq_true, Bool.or_false]
      tauto

/-- C5 witness: a two-object scene, empty similarity list. -/
theorem C5_toggleSimilar_involutive_witness :
    ((1 : Nat) ≠ 2 ∧
      (c5Graph.objects.find? (fun o => o.id == 1)).isSome = true ∧
      (c5Graph.objects.find? (fun o => o.id == 2)).isSome = true ∧
      pairCount [] 1 2 ≤ 1) ∧
    (∀ x y, containsPair (createSimilarityAnn c5Graph (some 1) 2 "t1"
        (createSimilarityAnn c5Graph (some 1) 2 "t0" [])) x y = true ↔
        containsPair [] x y = true) ∧
    createSimilarityAnn c5Graph (some 1) 1 "t0" [] = [] :=
  ⟨⟨by decide, by decide, by decide, by decide⟩,
   (C5_toggleSimilar_involutive c5Graph 1 2 "t0" "t1" [] (by decide)
      (by decide) (by decide) (by decide)).1,
   (C5_toggleSimilar_involutive c5Graph 1 2 "t0" "t1" [] (by decide)
      (by decide) (by decide) (by decide)).2.2.1⟩

/-!
### Export / import round trip (C4)
-/

theorem objGet_mem (m : ObjMap) (k : Nat) (v : String)
    (h : objGet m k = some v) : (k, v) ∈ m := by
  induction m with
  | nil => simp [objGet] at h
  | cons p rest ih =>
    obtain ⟨p1, p2⟩ := p
    by_cases hp : p1 = k
    · simp [objGet, hp] at h
      subst hp
      subst h
      exact List.mem_cons_self _ _
    · simp [objGet, hp] at h
      exact List.mem_cons_of_mem _ (ih h)

theorem exportValidation_some (o : Option String) (v : String)
    (h : exportValidation o = some v) : o = some v ∧ v ≠ "" := by
  rcases o with _ | w
  · simp [exportValidation] at h
  · by_cases hw : w = ""
    · simp [exportValidation, hw] at h
    · simp [exportValidation, hw] at h
      subst h
      exact ⟨rfl, hw⟩

/-- The step function of the import loops (`buildValidations`). -/
theorem buildValidations_go (src : ObjMap) (pairs : List (Nat × Option String))
    (hp : ∀ q ∈ pairs, q.2 = exportValidation (objGet src q.1)) :
    ∀ (init : ObjMap) (k : Nat),
      objGet (pairs.foldl
        (fun m p =>
          match p.2 with
          | some v => if v = "" then m else objSet m p.1 v
          | none => m) init) k =
      if pairs.any (fun q => q.1 == k) then
        (match exportValidation (objGet src k) with
         | some v => some v
         | none => objGet init k)
      else objGet init k := by
  induction pairs with
  | nil => intro init k; simp
  | cons q rest ih =>
    intro init k
    have hpq : q.2 = exportValidation (objGet src q.1) := hp q (List.mem_cons_self q rest)
    have hprest : ∀ q' ∈ rest, q'.2 = exportValidation (objGet src q'.1) :=
      fun q' hq' => hp q' (List.mem_cons_of_mem q hq')
    rw [List.foldl_cons, ih hprest]
    by_cases hqk : q.1 = k
    · rw [hqk] at hpq
      rcases hv : exportValidation (objGet src k) with _ | v
      · rw [hv] at hpq
        have hstep :
            (match q.2 with
             | some v => if v = "" then init else objSet init q.1 v
             | none => init) = init := by rw [hpq]
        rw [hstep]
        simp [hqk]
      · rw [hv] at hpq
        have hvne : v ≠ "" := (exportValidation_some _ _ hv).2
        have hstep :
            (match q.2 with
             | some v => if v = "" then init else objSet init q.1 v
             | none => init) = objSet init q.1 v := by rw [hpq]; simp [hvne]
        rw [hstep]
        by_cases hr : rest.any (fun q => q.1 == k)
        · simp [hqk, hr]
        · simp [hqk, hr, objGet_objSet]
    · have hstep : ∀ init' : ObjMap, objGet
          (match q.2 with
           | some v => if v = "" then init' else objSet init' q.1 v
           | none => init') k = objGet init' k := by
        intro init'
        rcases q2 : q.2 with _ | v
        · rfl
        · by_cases hv : v = ""
          · simp [hv]
          · simp [hv, objGet_objSet, hqk]
      by_cases hr : rest.any (fun q => q.1 == k)
      · simp [hqk, hr, hstep]
      · simp [hqk, hr, hstep]

theorem attrPairs_shape (m : ObjMap) (attrs : List SGAttr) :
    (mkPredAttrItems m attrs).map (fun it => (it.id, it.validation)) =
      attrs.map (fun a => (a.id, exportValidation (objGet m a.id))) := by
  simp [mkPredAttrItems, List.map_map]

theorem relPairs_validation (m : ObjMap) :
    ∀ (rels : List SGRel) (i : Nat),
      ∀ q ∈ (mkPredRelItems m i rels).map (fun it => (it.index, it.validation)),
        q.2 = exportValidation (objGet m q.1) := by
  intro rels
  induction rels with
  | nil => intro i q hq; simp [mkPredRelItems] at hq
  | cons r rest ih =>
    intro i q hq
    simp only [mkPredRelItems, List.map_cons, List.mem_cons] at hq
    rcases hq with hq | hq
    · rw [hq]
    · exact ih (i + 1) q (by simpa using hq)

theorem relPairs_any (m : ObjMap) :
    ∀ (rels : List SGRel) (i k : Nat),
      ((mkPredRelItems m i rels).map (fun it => (it.index, it.validation))).any
          (fun q => q.1 == k) =
        decide (i ≤ k ∧ k < i + rels.length) := by
  intro rels
  induction rels with
  | nil => intro i k; simp [mkPredRelItems]
  | cons r rest ih =>
    intro i k
    simp only [mkPredRelItems, List.map_cons, List.any_cons, ih (i + 1) k,
      List.length_cons]
    rw [Bool.eq_iff_iff]
    simp only [Bool.or_eq_true, beq_iff_eq, decide_eq_true_eq]
    omega

/-- C4: on a session whose attribute-validation keys are ids of predicted
attributes, whose relationship-validation keys are valid indices into the
predicted relationship array, and whose stored values are 'correct' or
'incorrect', exporting and re-importing the resulting document reproduces the
similarity annotation list and both validation maps (as maps). -/
theorem C4_export_import_roundtrip (g : SceneGraph) (cid : String)
    (st : AnnState) (uc : Bool)
    (hattr : ∀ p ∈ st.attributeValidations,
      (p.2 = "correct" ∨ p.2 = "incorrect") ∧ ∃ a ∈ g.attributes, a.id = p.1)
    (hrel : ∀ p ∈ st.relationshipValidations,
      (p.2 = "correct" ∨ p.2 = "incorrect") ∧ p.1 < g.relationships.length) :
    (processAnnotationFile (some g) (exportAnnotations (some g) cid st) uc
        st).similarityAnnotations = st.similarityAnnotations ∧
    mapEqv (processAnnotationFile (some g) (exportAnnotations (some g) cid st) uc
        st).attributeValidations st.attributeValidations ∧
    mapEqv (processAnnotationFile (some g) (exportAnnotations (some g) cid st) uc
        st).relationshipValidations st.relationshipValidations := by
  rcases processAnnotationFile_cases (some g) (exportAnnotations (some g) cid st) uc st
    with h | h <;> rw [h]
  · exact ⟨rfl, fun k => rfl, fun k => rfl⟩
  · refine ⟨?_, ?_, ?_⟩
    · rw [applyImport_simField]
      rfl
    · rw [applyImport_attrValField]
      have hitems : ((exportAnnotations (some g) cid st).attributes.bind
          AttrSection.predicted).bind PredAttrSection.items =
          some (mkPredAttrItems st.attributeValidations g.attributes) := rfl
      intro k
      have hgo := buildValidations_go st.attributeValidations
        ((mkPredAttrItems st.attributeValidations g.attributes).map
          (fun it => (it.id, it.validation)))
        (by
          intro q hq
          rw [attrPairs_shape] at hq
          obtain ⟨a, _, ha⟩ := List.mem_map.mp hq
          rw [← ha])
        [] k
      have hbuild : buildAttrValidations (mkPredAttrItems st.attributeValidations g.attributes) =
          ((mkPredAttrItems st.attributeValidations g.attributes).map
            (fun it => (it.id, it.validation))).foldl
            (fun m p =>
              match p.2 with
              | some v => if v = "" then m else objSet m p.1 v
              | none => m) [] := rfl
      have hshow : (((((exportAnnotations (some g) cid st).attributes.bind
          AttrSection.predicted).bind PredAttrSection.items).map
            buildAttrValidations).getD st.attributeValidations) =
          buildAttrValidations (mkPredAttrItems st.attributeValidations g.attributes) := rfl
      rw [hshow]
      rw [hbuild, hgo]
      rcases hsrc : objGet st.attributeValidations k with _ | v
      · by_cases hany : ((mkPredAttrItems st.attributeValidations g.attributes).map
            (fun it => (it.id, it.validation))).any (fun q => q.1 == k)
        · simp [hany, hsrc, exportValidation, objGet]
        · simp [hany, objGet]
      · have hmem := objGet_mem _ _ _ hsrc
        obtain ⟨hv, a, ha, haid⟩ := hattr (k, v) hmem
        have hv2 : v = "correct" ∨ v = "incorrect" := hv
        have hvne : v ≠ "" := by rcases hv2 with h | h <;> simp [h]
        have hany : ((mkPredAttrItems st.attributeValidations g.attributes).map
            (fun it => (it.id, it.validation))).any (fun q => q.1 == k) = true := by
          rw [attrPairs_shape, List.any_eq_true]
          exact ⟨(a.id, exportValidation (objGet st.attributeValidations a.id)),
            List.mem_map_of_mem _ ha, by simp [haid]⟩
        simp [hany, hsrc, exportValidation, hvne]
    · rw [applyImport_relValField]
      have hitems : ((exportAnnotations (some g) cid st).relationships.bind
          RelSection.predicted).bind PredRelSection.items =
          some (mkPredRelItems st.relationshipValidations 0 g.relationships) := rfl
      intro k
      have hgo := buildValidations_go st.relationshipValidations
        ((mkPredRelItems st.relationshipValidations 0 g.relationships).map
          (fun it => (it.index, it.validation)))
        (relPairs_validation st.relationshipValidations g.relationships 0)
        [] k
      have hshow : (((((exportAnnotations (some g) cid st).relationships.bind
          RelSection.predicted).bind PredRelSection.items).map
            buildRelValidations).getD st.relationshipValidations) =
          buildRelValidations (mkPredRelItems st.relationshipValidations 0 g.relationships) := rfl
      rw [hshow]
      rw [show buildRelValidations (mkPredRelItems st.relationshipValidations 0 g.relationships) =
          ((mkPredRelItems st.relationshipValidations 0 g.relationships).map
            (fun it => (it.index, it.validation))).foldl
            (fun m p =>
              match p.2 with
              | some v => if v = "" then m else objSet m p.1 v
              | none => m) [] from rfl, hgo]
      rcases hsrc : objGet st.relationshipValidations k with _ | v
      · by_cases hany : ((mkPredRelItems st.relationshipValidations 0 g.relationships).map
            (fun it => (it.index, it.validation))).any (fun q => q.1 == k)
        · simp [hany, hsrc, exportValidation, objGet]
        · simp [hany, objGet]
      · have hmem := objGet_mem _ _ _ hsrc
        obtain ⟨hv, hk⟩ := hrel (k, v) hmem
        have hv2 : v = "correct" ∨ v = "incorrect" := hv
        have hvne : v ≠ "" := by rcases hv2 with h | h <;> simp [h]
        have hany : ((mkPredRelItems st.relationshipValidations 0 g.relationships).map
            (fun it => (it.index, it.validation))).any (fun q => q.1 == k) = true := by
          rw [relPairs_any]
          simp
          omega
        simp [hany, hsrc, exportValidation, hvne]

/-- C4 witness: a one-attribute, one-relationship scene with one validation in
each map and one similarity annotation. -/
theorem C4_export_import_roundtrip_witness :
    ((∀ p ∈ c4State.attributeValidations,
        (p.2 = "correct" ∨ p.2 = "incorrect") ∧ ∃ a ∈ c4Graph.attributes, a.id = p.1) ∧
      (∀ p ∈ c4State.relationshipValidations,
        (p.2 = "correct" ∨ p.2 = "incorrect") ∧ p.1 < c4Graph.relationships.length)) ∧
    (processAnnotationFile (some c4Graph) (exportAnnotations (some c4Graph) "s" c4State) true
        c4State).similarityAnnotations = c4State.similarityAnnotations ∧
    mapEqv (processAnnotationFile (some c4Graph) (exportAnnotations (some c4Graph) "s" c4State) true
        c4State).attributeValidations c4State.attributeValidations :=
  ⟨⟨by decide, by decide⟩,
   (C4_export_import_roundtrip c4Graph "s" c4State true (by decide) (by decide)).1,
   (C4_export_import_roundtrip c4Graph "s" c4State true (by decide) (by decide)).2.1⟩

/-- C1 (code-bug evaluation): loading scene "scene_b" over a session holding
annotations for "scene_a" empties `attributeValidations`,
`additionalAttributes`, `relationshipValidations` and
`additionalRelationships`, but the similarity annotation list survives intact
— both through `loadScene` and through the scene-graph file handler — although
the comment at the clearing site reads "Clear all validations and annotations
for new scene". -/
theorem C1_loadScene_keeps_similarity :
    (loadScene c1Session "scene_b" c1Graph).ann.attributeValidations = [] ∧
    (loadScene c1Session "scene_b" c1Graph).ann.relationshipValidations = [] ∧
    (loadScene c1Session "scene_b" c1Graph).ann.additionalAttributes = [] ∧
    (loadScene c1Session "scene_b" c1Graph).ann.additionalRelationships = [] ∧
    (loadScene c1Session "scene_b" c1Graph).currentSceneId = some "scene_b" ∧
    (loadScene c1Session "scene_b" c1Graph).ann.similarityAnnotations =
      [⟨1, 2, "chair", "chair", true, "t0"⟩] ∧
    (loadSceneGraphFile c1Session c1Graph).ann.similarityAnnotations =
      [⟨1, 2, "chair", "chair", true, "t0"⟩] := by
  refine ⟨?_, ?_, ?_, ?_, ?_, ?_, ?_⟩ <;>
    simp [loadScene, loadSceneGraphFile, c1Session, c1Graph]

/-!
### Quaternion conversion (C6)
-/

/-- C6: the conversion returns `(0,0,0,1)` on the identity matrix; it returns
`(0,0,0,1)` whenever some entry is non-finite; and on a fully finite matrix it
returns the computed quaternion when all four components are finite and
`(0,0,0,1)` otherwise. -/
theorem C6_quaternionFromRotationMatrix_spec (M : Mat3) :
    quaternionFromRotationMatrix identityMat3 = (0, 0, 0, 1) ∧
    (matrixValid M = false → quaternionFromRotationMatrix M = (0, 0, 0, 1)) ∧
    (∀ a00 a01 a02 a10 a11 a12 a20 a21 a22 : ℝ,
      M = ⟨some a00, some a01, some a02, some a10, some a11, some a12,
           some a20, some a21, some a22⟩ →
      ((∃ x y z w : ℝ,
          computeQuatRaw a00 a01 a02 a10 a11 a12 a20 a21 a22 =
            (some x, some y, some z, some w) ∧
          quaternionFromRotationMatrix M = (x, y, z, w)) ∨
        ((¬ ∃ x y z w : ℝ,
            computeQuatRaw a00 a01 a02 a10 a11 a12 a20 a21 a22 =
              (some x, some y, some z, some w)) ∧
          quaternionFromRotationMatrix M = (0, 0, 0, 1)))) := by
  refine ⟨?_, ?_, ?_⟩
  · have hsqrt : Real.sqrt 4 = 2 := by
      rw [show (4 : ℝ) = 2 ^ 2 by norm_num]
      exact Real.sqrt_sq (by norm_num)
    have hc : computeQuatRaw 1 0 0 0 1 0 0 0 1 = (some 0, some 0, some 0, some 1) := by
      unfold computeQuatRaw
      rw [if_pos (by norm_num : (0 : ℝ) < 1 + 1 + 1)]
      norm_num [jsSqrt, jsDiv, jsMul, hsqrt]
    calc quaternionFromRotationMatrix identityMat3
        = (match computeQuatRaw 1 0 0 0 1 0 0 0 1 with
           | (some qx, some qy, some qz, some qw) => (qx, qy, qz, qw)
           | _ => ((0 : ℝ), (0 : ℝ), (0 : ℝ), (1 : ℝ))) := rfl
      _ = (0, 0, 0, 1) := by rw [hc]
  · intro h
    obtain ⟨m00, m01, m02, m10, m11, m12, m20, m21, m22⟩ := M
    rcases m00 with _ | a00
    · rfl
    rcases m01 with _ | a01
    · rfl
    rcases m02 with _ | a02
    · rfl
    rcases m10 with _ | a10
    · rfl
    rcases m11 with _ | a11
    · rfl
    rcases m12 with _ | a12
    · rfl
    rcases m20 with _ | a20
    · rfl
    rcases m21 with _ | a21
    · rfl
    rcases m22 with _ | a22
    · rfl
    simp [matrixValid] at h
  · intro a00 a01 a02 a10 a11 a12 a20 a21 a22 heq
    subst heq
    rcases hq : computeQuatRaw a00 a01 a02 a10 a11 a12 a20 a21 a22 with ⟨qx, qy, qz, qw⟩
    have hfin : quaternionFromRotationMatrix
        ⟨some a00, some a01, some a02, some a10, some a11, some a12,
         some a20, some a21, some a22⟩ =
        (match computeQuatRaw a00 a01 a02 a10 a11 a12 a20 a21 a22 with
         | (some qx, some qy, some qz, some qw) => (qx, qy, qz, qw)
         | _ => ((0 : ℝ), (0 : ℝ), (0 : ℝ), (1 : ℝ))) := rfl
    rcases qx with _ | x <;> rcases qy with _ | y <;> rcases qz with _ | z <;>
      rcases qw with _ | w
    all_goals
      try
        (refine Or.inr ⟨?_, ?_⟩
         · rintro ⟨x', y', z', w', hc⟩
           simp [hq] at hc
         · rw [hfin, hq])
    refine Or.inl ⟨x, y, z, w, rfl, ?_⟩
    rw [hfin, hq]

/-- C6 witness: the non-finite guard at a concrete NaN matrix, and the
finite-matrix branch at the identity matrix. -/
theorem C6_quaternionFromRotationMatrix_spec_witness :
    (matrixValid c6NaNMat = false ∧
      quaternionFromRotationMatrix c6NaNMat = (0, 0, 0, 1)) ∧
    (identityMat3 = ⟨some 1, some 0, some 0, some 0, some 1, some 0,
        some 0, some 0, some 1⟩ ∧
      ((∃ x y z w : ℝ,
          computeQuatRaw 1 0 0 0 1 0 0 0 1 = (some x, some y, some z, some w) ∧
          quaternionFromRotationMatrix identityMat3 = (x, y, z, w)) ∨
        ((¬ ∃ x y z w : ℝ,
            computeQuatRaw 1 0 0 0 1 0 0 0 1 = (some x, some y, some z, some w)) ∧
          quaternionFromRotationMatrix identityMat3 = (0, 0, 0, 1)))) :=
  ⟨⟨rfl, (C6_quaternionFromRotationMatrix_spec c6NaNMat).2.1 rfl⟩,
   ⟨rfl, (C6_quaternionFromRotationMatrix_spec identityMat3).2.2
      1 0 0 0 1 0 0 0 1 rfl⟩⟩

/-!
### MultiScan "on top of" inference (C3)
-/

/-- Exactly which directed edges the pair loop emits for `(o1, o2)`. -/
theorem onTopEdges_mem_iff (o1 o2 : MSObject) (hid : o1.id ≠ o2.id) :
    ({ subject := o1.id, predicate := "on top of", object := o2.id } ∈ onTopEdges o1 o2 ↔
      (horizontalDistOf o1 o2 < horizontalExtent o1 o2 ∧
       verticalOverlapOf o1 o2 < 0.1 ∧
       0.05 < verticalDistOf o1 o2 ∧ verticalDistOf o1 o2 < 0.5)) ∧
    ({ subject := o2.id, predicate := "on top of", object := o1.id } ∈ onTopEdges o1 o2 ↔
      (horizontalDistOf o1 o2 < horizontalExtent o1 o2 ∧
       verticalOverlapOf o1 o2 < 0.1 ∧
       -0.5 < verticalDistOf o1 o2 ∧ verticalDistOf o1 o2 < -0.05)) := by
  unfold onTopEdges
  by_cases h1 : horizontalDistOf o1 o2 < horizontalExtent o1 o2
  · rw [if_pos h1]
    by_cases h2 : verticalOverlapOf o1 o2 < 0.1 ∧ |verticalDistOf o1 o2| < 0.5
    · rw [if_pos h2]
      obtain ⟨h2a, h2b⟩ := h2
      rw [abs_lt] at h2b
      by_cases hup : 0.05 < verticalDistOf o1 o2
      · rw [if_pos hup]
        constructor
        · simp only [List.mem_singleton]
          exact ⟨fun _ => ⟨h1, h2a, hup, h2b.2⟩, fun _ => by trivial⟩
        · simp only [List.mem_singleton]
          constructor
          · intro hmem
            exact absurd (congrArg MSRel.subject hmem) (Ne.symm hid)
          · rintro ⟨_, _, _, hlt⟩
            linarith
      · rw [if_neg hup]
        by_cases hdown : verticalDistOf o1 o2 < -0.05
        · rw [if_pos hdown]
          constructor
          · simp only [List.mem_singleton]
            constructor
            · intro hmem
              exact absurd (congrArg MSRel.subject hmem) hid
            · rintro ⟨_, _, hgt, _⟩
              exact absurd hgt hup
          · simp only [List.mem_singleton]
            exact ⟨fun _ => ⟨h1, h2a, h2b.1, hdown⟩, fun _ => by trivial⟩
        · rw [if_neg hdown]
          constructor
          · simp only [List.not_mem_nil, false_iff]
            rintro ⟨_, _, hgt, _⟩
            exact hup hgt
          · simp only [List.not_mem_nil, false_iff]
            rintro ⟨_, _, _, hlt⟩
            exact hdown hlt
    · rw [if_neg h2]
      constructor
      · simp only [List.not_mem_nil, false_iff]
        rintro ⟨_, hov, hgt, hlt⟩
        exact h2 ⟨hov, abs_lt.mpr ⟨by linarith, hlt⟩⟩
      · simp only [List.not_mem_nil, false_iff]
        rintro ⟨_, hov, hgt, hlt⟩
        exact h2 ⟨hov, abs_lt.mpr ⟨hgt, by linarith⟩⟩
  · rw [if_neg h1]
    constructor
    · simp only [List.not_mem_nil, false_iff]
      rintro ⟨hh, _, _, _⟩
      exact h1 hh
    · simp only [List.not_mem_nil, false_iff]
      rintro ⟨hh, _, _, _⟩
      exact h1 hh

theorem inferOnTopOf_pair (a b : MSObject) :
    inferOnTopOf [a, b] = onTopEdges a b := by
  simp [inferOnTopOf]

theorem onTopEdges_c3_03 : onTopEdges c3BoxA c3BoxB03 = [] := by
  have habs : |verticalDistOf c3BoxA c3BoxB03| = 0.3 := by
    rw [show verticalDistOf c3BoxA c3BoxB03 = -(0.3 : ℝ) by
        unfold verticalDistOf c3BoxA c3BoxB03; norm_num,
      abs_neg, abs_of_nonneg (by norm_num : (0 : ℝ) ≤ 0.3)]
  have hov : verticalOverlapOf c3BoxA c3BoxB03 = 0.7 := by
    unfold verticalOverlapOf
    rw [habs]
    unfold c3BoxA c3BoxB03
    norm_num
  have hh : horizontalDistOf c3BoxA c3BoxB03 < horizontalExtent c3BoxA c3BoxB03 := by
    have h0 : horizontalDistOf c3BoxA c3BoxB03 = 0 := by
      unfold horizontalDistOf c3BoxA c3BoxB03
      norm_num
    rw [h0]
    unfold horizontalExtent c3BoxA c3BoxB03
    norm_num
  unfold onTopEdges
  rw [if_pos hh, if_neg]
  rintro ⟨hov', _⟩
  rw [hov] at hov'
  norm_num at hov'

theorem onTopEdges_c3_08 : onTopEdges c3BoxA c3BoxB08 = [] := by
  have habs : |verticalDistOf c3BoxA c3BoxB08| = 0.8 := by
    rw [show verticalDistOf c3BoxA c3BoxB08 = -(0.8 : ℝ) by
        unfold verticalDistOf c3BoxA c3BoxB08; norm_num,
      abs_neg, abs_of_nonneg (by norm_num : (0 : ℝ) ≤ 0.8)]
  have hh : horizontalDistOf c3BoxA c3BoxB08 < horizontalExtent c3BoxA c3BoxB08 := by
    have h0 : horizontalDistOf c3BoxA c3BoxB08 = 0 := by
      unfold horizontalDistOf c3BoxA c3BoxB08
      norm_num
    rw [h0]
    unfold horizontalExtent c3BoxA c3BoxB08
    norm_num
  unfold onTopEdges
  rw [if_pos hh, if_neg]
  rintro ⟨_, habs'⟩
  rw [habs] at habs'
  norm_num at habs'

theorem onTopEdges_c3_boundary : onTopEdges c3BoxC c3BoxD = [] := by
  have habs : |verticalDistOf c3BoxC c3BoxD| = 0.5 := by
    rw [show verticalDistOf c3BoxC c3BoxD = -(0.5 : ℝ) by
        unfold verticalDistOf c3BoxC c3BoxD; norm_num,
      abs_neg, abs_of_nonneg (by norm_num : (0 : ℝ) ≤ 0.5)]
  have hh : horizontalDistOf c3BoxC c3BoxD < horizontalExtent c3BoxC c3BoxD := by
    have h0 : horizontalDistOf c3BoxC c3BoxD = 0 := by
      unfold horizontalDistOf c3BoxC c3BoxD
      norm_num
    rw [h0]
    unfold horizontalExtent c3BoxC c3BoxD
    norm_num
  unfold onTopEdges
  rw [if_pos hh, if_neg]
  rintro ⟨_, habs'⟩
  rw [habs] at habs'
  norm_num at habs'

/-- C3 (amended): for each pair of distinct objects the loop emits the edge
from the higher-centered object to the lower one exactly when the horizontal
center distance is below the larger of the per-axis horizontal half-extent
sums, the vertical overlap `(h1y + h2y) - |Δy|` is < 0.1, and the vertical
separation magnitude lies strictly between 0.05 and 0.5; in particular two
unit boxes at up-axis centers 0.0 and 0.3 produce no edge (overlap 0.7), and
centers 0.0 and 0.8 produce no edge. -/
theorem C3_onTopOf_amended (o1 o2 : MSObject) (hid : o1.id ≠ o2.id) :
    ({ subject := o1.id, predicate := "on top of", object := o2.id } ∈ onTopEdges o1 o2 ↔
      (horizontalDistOf o1 o2 < horizontalExtent o1 o2 ∧
       verticalOverlapOf o1 o2 < 0.1 ∧
       0.05 < verticalDistOf o1 o2 ∧ verticalDistOf o1 o2 < 0.5)) ∧
    ({ subject := o2.id, predicate := "on top of", object := o1.id } ∈ onTopEdges o1 o2 ↔
      (horizontalDistOf o1 o2 < horizontalExtent o1 o2 ∧
       verticalOverlapOf o1 o2 < 0.1 ∧
       -0.5 < verticalDistOf o1 o2 ∧ verticalDistOf o1 o2 < -0.05)) ∧
    inferOnTopOf [c3BoxA, c3BoxB03] = [] ∧
    inferOnTopOf [c3BoxA, c3BoxB08] = [] := by
  refine ⟨(onTopEdges_mem_iff o1 o2 hid).1, (onTopEdges_mem_iff o1 o2 hid).2, ?_, ?_⟩
  · rw [inferOnTopOf_pair, onTopEdges_c3_03]
  · rw [inferOnTopOf_pair, onTopEdges_c3_08]

/-- C3 witness: the two unit boxes of the scenario. -/
theorem C3_onTopOf_amended_witness :
    c3BoxA.id ≠ c3BoxB03.id ∧ inferOnTopOf [c3BoxA, c3BoxB03] = [] :=
  ⟨by simp [c3BoxA, c3BoxB03],
   (C3_onTopOf_amended c3BoxA c3BoxB03 (by simp [c3BoxA, c3BoxB03])).2.2.1⟩

/-- C3 counterexample: the claim's scenario asserts an edge for unit boxes at
vertical centers 0.0 and 0.3, but the code emits none (the vertical overlap
1.0 − 0.3 = 0.7 fails `verticalOverlap < 0.1`); a separation of exactly 0.5
(claimed inside the `(0.05, 0.5]` range) also emits nothing, since the code
tests `|Δy| < 0.5` strictly. -/
theorem C3_counterexample :
    inferOnTopOf [c3BoxA, c3BoxB03] = [] ∧
    ¬ ({ subject := c3BoxB03.id, predicate := "on top of", object := c3BoxA.id } ∈
        inferOnTopOf [c3BoxA, c3BoxB03]) ∧
    inferOnTopOf [c3BoxC, c3BoxD] = [] := by
  refine ⟨?_, ?_, ?_⟩
  · rw [inferOnTopOf_pair, onTopEdges_c3_03]
  · rw [inferOnTopOf_pair, onTopEdges_c3_03]
    simp
  · rw [inferOnTopOf_pair, onTopEdges_c3_boundary]

/-!
### Binary PLY decoding (C2, C7)
-/

/-- C2 (code-bug evaluation): decoding the scenario's buffer yields
`points = [1,2,3,4,5,6]` but only ONE color triple — the sRGB→linear
conversion of `(1,0,0)` for the first vertex.  The second vertex's color is
skipped because the color guard demands `offset + colorOffset + 4 ≤
byteLength` (reserving a fourth, alpha, byte that this RGB-only layout does
not have): for the last vertex `15 + 12 + 4 = 31 > 30`.  The claim's
"one color triple for every one of the two vertices" (colors of length 6)
fails. -/
theorem C2_parseBinaryPLY_drops_last_color :
    parseBinaryPLY c2Buffer 0 2 0 true 15 (some 12) 0 4 8 false 0 =
      .ok { points := [1, 2, 3, 4, 5, 6]
            colors := [sRGBToLinear 1, sRGBToLinear 0, sRGBToLinear 0]
            indices := []
            hasColors := true
            hasFaces := false } ∧
    (parseBinaryPLY c2Buffer 0 2 0 true 15 (some 12) 0 4 8 false 0).map
        (fun r => r.colors.length) ≠ Except.ok 6 := by
  have h : parseBinaryPLY c2Buffer 0 2 0 true 15 (some 12) 0 4 8 false 0 =
      .ok { points := [1, 2, 3, 4, 5, 6]
            colors := [sRGBToLinear 1, sRGBToLinear 0, sRGBToLinear 0]
            indices := []
            hasColors := true
            hasFaces := false } := by
    norm_num [parseBinaryPLY, parseVertexLoop, vertexColors, readCoord, readLE,
      leNat, c2Buffer, float32OfBits, sanitizeCoord, List.range_succ]
  refine ⟨h, ?_⟩
  rw [h]
  simp [Except.map]

theorem readLE_some (buf : List Nat) (hl off n : Nat)
    (h : off + n ≤ buf.length - hl) : ∃ w, readLE buf hl off n = some w :=
  ⟨leNat ((List.range n).map (fun i => buf.getD (hl + off + i) 0)),
   by unfold readLE; rw [if_pos h]⟩

/-- One unfolding of the vertex loop at positive fuel (the equation compiler
cannot produce an unfold lemma for this shape, but the definitional equation
holds by `rfl`). -/
theorem parseVertexLoop_step (buf : List Nat) (hl : Nat) (hasColors : Bool)
    (bpv : Nat) (co : Option Nat) (xo yo zo : Nat) (dbl : Bool)
    (fuel offset : Nat) (points : List ℚ) (colors : List ℝ) :
    parseVertexLoop buf hl hasColors bpv co xo yo zo dbl (fuel + 1) offset points colors =
      (if buf.length - hl < offset + bpv then .ok (points, colors, offset)
       else
         match readCoord buf hl dbl (offset + xo), readCoord buf hl dbl (offset + yo),
               readCoord buf hl dbl (offset + zo) with
         | some xv, some yv, some zv =>
           parseVertexLoop buf hl hasColors bpv co xo yo zo dbl fuel (offset + bpv)
             (points ++ [sanitizeCoord xv, sanitizeCoord yv, sanitizeCoord zv])
             (vertexColors buf hl hasColors co offset colors)
         | _, _, _ => .error ()) := rfl

/-- The vertex loop never throws and decodes exactly the vertices whose full
`bytesPerVertex` record lies inside the view, as long as the x/y/z offsets sit
inside the per-vertex record (which the header scan guarantees). -/
theorem parseVertexLoop_spec (buf : List Nat) (hl : Nat) (hasColors : Bool)
    (bpv : Nat) (co : Option Nat) (xo yo zo : Nat) (dbl : Bool)
    (hx : (if dbl then 8 else 4) + xo ≤ bpv)
    (hy : (if dbl then 8 else 4) + yo ≤ bpv)
    (hz : (if dbl then 8 else 4) + zo ≤ bpv) :
    ∀ (fuel offset : Nat) (points : List ℚ) (colors : List ℝ),
      ∃ pts cls off2,
        parseVertexLoop buf hl hasColors bpv co xo yo zo dbl fuel offset points colors =
          .ok (pts, cls, off2) ∧
        pts.length = points.length + 3 * min fuel ((buf.length - hl - offset) / bpv) := by
  have hbpv : 0 < bpv := by
    cases dbl <;> simp at hx <;> omega
  intro fuel
  induction fuel with
  | zero =>
    intro offset points colors
    exact ⟨points, colors, offset, rfl, by simp⟩
  | succ n ih =>
    intro offset points colors
    by_cases hbreak : buf.length - hl < offset + bpv
    · refine ⟨points, colors, offset, ?_, ?_⟩
      · rw [parseVertexLoop_step, if_pos hbreak]
      · have hz0 : (buf.length - hl - offset) / bpv = 0 := Nat.div_eq_of_lt (by omega)
        simp [hz0]
    · push_neg at hbreak
      have hreadC : ∀ o : Nat, (if dbl then 8 else 4) + o ≤ bpv →
          ∃ v, readCoord buf hl dbl (offset + o) = some v := by
        intro o ho
        unfold readCoord
        cases hdbl : dbl
        · rw [hdbl] at ho
          simp only [Bool.false_eq_true, if_false] at ho ⊢
          obtain ⟨w, hw⟩ := readLE_some buf hl (offset + o) 4 (by omega)
          exact ⟨float32OfBits w, by rw [hw]; rfl⟩
        · rw [hdbl] at ho
          simp only [if_true] at ho ⊢
          obtain ⟨w, hw⟩ := readLE_some buf hl (offset + o) 8 (by omega)
          exact ⟨float64OfBits w, by rw [hw]; rfl⟩
      obtain ⟨vx, hvx⟩ := hreadC xo hx
      obtain ⟨vy, hvy⟩ := hreadC yo hy
      obtain ⟨vz, hvz⟩ := hreadC zo hz
      obtain ⟨pts, cls, off2, heq, hlen⟩ := ih (offset + bpv)
        (points ++ [sanitizeCoord vx, sanitizeCoord vy, sanitizeCoord vz])
        (vertexColors buf hl hasColors co offset colors)
      refine ⟨pts, cls, off2, ?_, ?_⟩
      · rw [parseVertexLoop_step, if_neg (by omega), hvx, hvy, hvz]
        exact heq
      · rw [hlen]
        have hdiv : (buf.length - hl - offset) / bpv =
            (buf.length - hl - (offset + bpv)) / bpv + 1 := by
          have h1 : buf.length - hl - offset = (buf.length - hl - (offset + bpv)) + bpv := by
            omega
          rw [h1, Nat.add_div_right _ hbpv]
        rw [hdiv, Nat.succ_min_succ]
        simp
        omega

/-- One unfolding of the face loop at positive fuel, `let`s inlined. -/
theorem parseFaceLoop_step (buf : List Nat) (hl extra : Nat) (points : List ℚ)
    (fuel offset : Nat) (indices : List Int) :
    parseFaceLoop buf hl extra points (fuel + 1) offset indices =
      (if buf.length - hl < offset + 1 then .ok (indices, offset)
       else
         match readLE buf hl offset 1 with
         | none => .error ()
         | some numVerts =>
           if numVerts = 3 ∧ offset + 1 + 12 + extra ≤ buf.length - hl then
             match readLE buf hl (offset + 1) 4, readLE buf hl (offset + 1 + 4) 4,
                   readLE buf hl (offset + 1 + 8) 4 with
             | some w0, some w1, some w2 =>
               parseFaceLoop buf hl extra points fuel (offset + 1 + 12 + extra)
                 (if 0 ≤ toSigned32 w0 ∧
                     toSigned32 w0 ≤ ((points.length / 3 : Nat) : Int) - 1 ∧
                     0 ≤ toSigned32 w1 ∧
                     toSigned32 w1 ≤ ((points.length / 3 : Nat) : Int) - 1 ∧
                     0 ≤ toSigned32 w2 ∧
                     toSigned32 w2 ≤ ((points.length / 3 : Nat) : Int) - 1 then
                    if isOriginVertex points (toSigned32 w0) ∨
                        isOriginVertex points (toSigned32 w1) ∨
                        isOriginVertex points (toSigned32 w2) then indices
                    else indices ++ [toSigned32 w0, toSigned32 w1, toSigned32 w2]
                  else indices)
             | _, _, _ => .error ()
           else
             if 0 < numVerts ∧ numVerts < 10 then
               if buf.length - hl < offset + 1 + numVerts * 4 + extra then
                 .ok (indices, offset + 1 + numVerts * 4 + extra)
               else
                 parseFaceLoop buf hl extra points fuel
                   (offset + 1 + numVerts * 4 + extra) indices
             else .ok (indices, offset)) := rfl

/-- The face-loop unfolding once the vertex-count byte is known. -/
theorem parseFaceLoop_step_some (buf : List Nat) (hl extra : Nat) (points : List ℚ)
    (fuel offset : Nat) (indices : List Int) (nv : Nat)
    (hoff : ¬ buf.length - hl < offset + 1)
    (hnv : readLE buf hl offset 1 = some nv) :
    parseFaceLoop buf hl extra points (fuel + 1) offset indices =
      (if nv = 3 ∧ offset + 1 + 12 + extra ≤ buf.length - hl then
         match readLE buf hl (offset + 1) 4, readLE buf hl (offset + 1 + 4) 4,
               readLE buf hl (offset + 1 + 8) 4 with
         | some w0, some w1, some w2 =>
           parseFaceLoop buf hl extra points fuel (offset + 1 + 12 + extra)
             (if 0 ≤ toSigned32 w0 ∧
                 toSigned32 w0 ≤ ((points.length / 3 : Nat) : Int) - 1 ∧
                 0 ≤ toSigned32 w1 ∧
                 toSigned32 w1 ≤ ((points.length / 3 : Nat) : Int) - 1 ∧
                 0 ≤ toSigned32 w2 ∧
                 toSigned32 w2 ≤ ((points.length / 3 : Nat) : Int) - 1 then
                if isOriginVertex points (toSigned32 w0) ∨
                    isOriginVertex points (toSigned32 w1) ∨
                    isOriginVertex points (toSigned32 w2) then indices
                else indices ++ [toSigned32 w0, toSigned32 w1, toSigned32 w2]
              else indices)
         | _, _, _ => .error ()
       else
         if 0 < nv ∧ nv < 10 then
           if buf.length - hl < offset + 1 + nv * 4 + extra then
             .ok (indices, offset + 1 + nv * 4 + extra)
           else
             parseFaceLoop buf hl extra points fuel
               (offset + 1 + nv * 4 + extra) indices
         else .ok (indices, offset)) := by
  rw [parseFaceLoop_step, if_neg hoff, hnv]

/-- The face loop never throws (every read is guarded) and every index triple
it appends references a decoded vertex. -/
theorem parseFaceLoop_spec (buf : List Nat) (hl extra : Nat) (points : List ℚ) :
    ∀ (fuel offset : Nat) (indices : List Int),
      (∀ j ∈ indices, 0 ≤ j ∧ j < ((points.length / 3 : Nat) : Int)) →
      ∃ inds off2,
        parseFaceLoop buf hl extra points fuel offset indices = .ok (inds, off2) ∧
        ∀ j ∈ inds, 0 ≤ j ∧ j < ((points.length / 3 : Nat) : Int) := by
  intro fuel
  induction fuel with
  | zero =>
    intro offset indices hinv
    exact ⟨indices, offset, rfl, hinv⟩
  | succ n ih =>
    intro offset indices hinv
    by_cases hbreak : buf.length - hl < offset + 1
    · exact ⟨indices, offset, by rw [parseFaceLoop_step, if_pos hbreak], hinv⟩
    · obtain ⟨nv, hnv⟩ := readLE_some buf hl offset 1 (by omega)
      by_cases htri : nv = 3 ∧ offset + 1 + 12 + extra ≤ buf.length - hl
      · obtain ⟨w0, hw0⟩ := readLE_some buf hl (offset + 1) 4 (by omega)
        obtain ⟨w1, hw1⟩ := readLE_some buf hl (offset + 1 + 4) 4 (by omega)
        obtain ⟨w2, hw2⟩ := readLE_some buf hl (offset + 1 + 8) 4 (by omega)
        have hinv2 : ∀ j ∈ (if 0 ≤ toSigned32 w0 ∧
              toSigned32 w0 ≤ ((points.length / 3 : Nat) : Int) - 1 ∧
              0 ≤ toSigned32 w1 ∧
              toSigned32 w1 ≤ ((points.length / 3 : Nat) : Int) - 1 ∧
              0 ≤ toSigned32 w2 ∧
              toSigned32 w2 ≤ ((points.length / 3 : Nat) : Int) - 1 then
            if isOriginVertex points (toSigned32 w0) ∨
                isOriginVertex points (toSigned32 w1) ∨
                isOriginVertex points (toSigned32 w2) then indices
            else indices ++ [toSigned32 w0, toSigned32 w1, toSigned32 w2]
          else indices), 0 ≤ j ∧ j < ((points.length / 3 : Nat) : Int) := by
          by_cases hvalid : 0 ≤ toSigned32 w0 ∧
              toSigned32 w0 ≤ ((points.length / 3 : Nat) : Int) - 1 ∧
              0 ≤ toSigned32 w1 ∧
              toSigned32 w1 ≤ ((points.length / 3 : Nat) : Int) - 1 ∧
              0 ≤ toSigned32 w2 ∧
              toSigned32 w2 ≤ ((points.length / 3 : Nat) : Int) - 1
          · rw [if_pos hvalid]
            by_cases horig : isOriginVertex points (toSigned32 w0) ∨
                isOriginVertex points (toSigned32 w1) ∨
                isOriginVertex points (toSigned32 w2)
            · rw [if_pos horig]; exact hinv
            · rw [if_neg horig]
              intro j hj
              rcases List.mem_append.mp hj with hj | hj
              · exact hinv j hj
              · obtain ⟨hv0, hv1, hv2, hv3, hv4, hv5⟩ := hvalid
                simp only [List.mem_cons, List.not_mem_nil, or_false] at hj
                rcases hj with hj | hj | hj
                · exact ⟨hj ▸ hv0, by rw [hj]; omega⟩
                · exact ⟨hj ▸ hv2, by rw [hj]; omega⟩
                · exact ⟨hj ▸ hv4, by rw [hj]; omega⟩
          · rw [if_neg hvalid]; exact hinv
        obtain ⟨inds, off2, heq, hres⟩ := ih (offset + 1 + 12 + extra) _ hinv2
        refine ⟨inds, off2, ?_, hres⟩
        rw [parseFaceLoop_step_some buf hl extra points n offset indices nv hbreak hnv,
          if_pos htri, hw0, hw1, hw2]
        exact heq
      · by_cases hskip : 0 < nv ∧ nv < 10
        · by_cases hoff : buf.length - hl < offset + 1 + nv * 4 + extra
          · refine ⟨indices, offset + 1 + nv * 4 + extra, ?_, hinv⟩
            rw [parseFaceLoop_step_some buf hl extra points n offset indices nv hbreak hnv,
              if_neg htri, if_pos hskip, if_pos hoff]
          · obtain ⟨inds, off2, heq, hres⟩ := ih (offset + 1 + nv * 4 + extra) _ hinv
            refine ⟨inds, off2, ?_, hres⟩
            rw [parseFaceLoop_step_some buf hl extra points n offset indices nv hbreak hnv,
              if_neg htri, if_pos hskip, if_neg hoff]
            exact heq
        · refine ⟨indices, offset, ?_, hinv⟩
          rw [parseFaceLoop_step_some buf hl extra points n offset indices nv hbreak hnv,
            if_neg htri, if_neg hskip]

/-- `parseBinaryPLY` restated as a definitional equation, for rewriting. -/
theorem parseBinaryPLY_eq (buf : List Nat) (hl vc fc : Nat) (hc : Bool)
    (bpv : Nat) (co : Option Nat) (xo yo zo : Nat) (dbl : Bool) (extra : Nat) :
    parseBinaryPLY buf hl vc fc hc bpv co xo yo zo dbl extra =
      (if buf.length < hl then .error ()
       else
         match parseVertexLoop buf hl hc bpv co xo yo zo dbl vc 0 [] [] with
         | .error e => .error e
         | .ok (points, colors, offset) =>
           match (if 0 < fc then parseFaceLoop buf hl extra points fc offset []
                  else .ok ([], offset)) with
           | .error e => .error e
           | .ok (indices, _) =>
             .ok { points := points
                   colors := colors
                   indices := indices
                   hasColors := hc && decide (0 < colors.length)
                   hasFaces := decide (0 < fc) }) := rfl

/-- C7 (amended): for every buffer (any length, including truncations), with
the offset side conditions the header scan guarantees, the binary decode
returns `Except.ok` — it neither throws nor reads out of bounds, since the
model maps any out-of-range `DataView` access to `Except.error` — decodes
exactly the vertices fully contained in the payload
(`min(vertexCount, ⌊payload / bytesPerVertex⌋)` of them), and every returned
face index references a decoded vertex.  Fully contained faces may still be
dropped by the validity filter, so the face list is a filtered subset of the
fully contained records, not all of them. -/
theorem C7_parseBinaryPLY_total (buf : List Nat) (hl vc fc : Nat) (hc : Bool)
    (bpv : Nat) (co : Option Nat) (xo yo zo : Nat) (dbl : Bool) (extra : Nat)
    (hhl : hl ≤ buf.length)
    (hx : (if dbl then 8 else 4) + xo ≤ bpv)
    (hy : (if dbl then 8 else 4) + yo ≤ bpv)
    (hz : (if dbl then 8 else 4) + zo ≤ bpv) :
    ∃ r, parseBinaryPLY buf hl vc fc hc bpv co xo yo zo dbl extra = .ok r ∧
      r.points.length = 3 * min vc ((buf.length - hl) / bpv) ∧
      (∀ j ∈ r.indices, 0 ≤ j ∧ j < ((r.points.length / 3 : Nat) : Int)) := by
  obtain ⟨pts, cls, off2, heq, hlen⟩ :=
    parseVertexLoop_spec buf hl hc bpv co xo yo zo dbl hx hy hz vc 0 [] []
  simp only [List.length_nil, Nat.zero_add, Nat.sub_zero] at hlen
  by_cases hfc : 0 < fc
  · obtain ⟨inds, off3, heq2, hres⟩ :=
      parseFaceLoop_spec buf hl extra pts fc off2 [] (by simp)
    refine ⟨{ points := pts, colors := cls, indices := inds,
              hasColors := hc && decide (0 < cls.length),
              hasFaces := decide (0 < fc) }, ?_, hlen, hres⟩
    rw [parseBinaryPLY_eq, if_neg (by omega), heq]
    simp only [hfc, if_true, heq2]
  · refine ⟨{ points := pts, colors := cls, indices := [],
              hasColors := hc && decide (0 < cls.length),
              hasFaces := decide (0 < fc) }, ?_, hlen, by simp⟩
    rw [parseBinaryPLY_eq, if_neg (by omega), heq]
    simp only [hfc, if_false]

/-- C7 witness: the side conditions at the C2 buffer and layout. -/
theorem C7_parseBinaryPLY_total_witness :
    ((0 : Nat) ≤ c2Buffer.length ∧
      (if false then 8 else 4) + 0 ≤ 15 ∧
      (if false then 8 else 4) + 4 ≤ 15 ∧
      (if false then 8 else 4) + 8 ≤ 15) ∧
    (∃ r, parseBinaryPLY c2Buffer 0 2 0 true 15 (some 12) 0 4 8 false 0 = .ok r ∧
      r.points.length = 3 * min 2 ((c2Buffer.length - 0) / 15) ∧
      (∀ j ∈ r.indices, 0 ≤ j ∧ j < ((r.points.length / 3 : Nat) : Int))) :=
  ⟨⟨by decide, by decide, by decide, by decide⟩,
   C7_parseBinaryPLY_total c2Buffer 0 2 0 true 15 (some 12) 0 4 8 false 0
     (by decide) (by decide) (by decide) (by decide)⟩

/-- C7 counterexample: this buffer fully contains one vertex record and one
complete 13-byte triangle record (bytes 12–24, `12 + 13 ≤ 25`), yet the
decoder returns no face at all: the record's indices `(1, 2, 3)` are outside
the decoded vertex range `{0}`, so the validity filter drops a fully
contained face, refuting "returns exactly the vertices and faces that were
fully contained in the buffer". -/
theorem C7_counterexample :
    parseBinaryPLY c7Buffer 0 1 1 false 12 none 0 4 8 false 0 =
      .ok { points := [1, 2, 3], colors := [], indices := [],
            hasColors := false, hasFaces := true } ∧
    c7Buffer.length = 25 ∧ 12 + 13 ≤ c7Buffer.length := by
  refine ⟨?_, by decide, by decide⟩
  norm_num [parseBinaryPLY, parseVertexLoop, vertexColors, parseFaceLoop,
    readCoord, readLE, leNat, c7Buffer, float32OfBits, sanitizeCoord,
    toSigned32, isOriginVertex, List.range_succ]

end SceneAnnotator
